import Mathlib

/-!
# Verification of the gs_landsat download library

A shallow embedding of `gs_landsat.py` (and the driver `download_landsat.py`):
Landsat products are mirrored from a public Google Cloud bucket onto local
disk.  Strings are modelled as `List Char` (`Str`), the local filesystem as a
list of file paths plus a list of directory paths, and HTTP as an oracle
`Str → Bool` telling which URLs respond successfully.  Python-specific
behaviour (`str.split`, `os.path.join`, `==` across `int`/`str`,
`str.isnumeric`, dict insertion order) is modelled faithfully.
-/

namespace GsLandsat

/-- Python strings, modelled as lists of characters. -/
abbrev Str := List Char

/-- A Python value appearing in the `bands` collections: either an `int`
(band number) or a `str` (`'MTL'`, `'BQA'`, `'GM4'`, `'B1'`, ...).
Collection numbers (`1`, `2`, `'PRE'`) are modelled with the same type. -/
inductive PyVal where
  | int (n : Nat)
  | str (s : Str)
deriving DecidableEq

/-- Python `==` on these values: `int`/`str` comparisons are `False`. -/
def pyEq : PyVal → PyVal → Bool
  | .int n, .int m => n == m
  | .str s, .str t => s == t
  | _, _ => false

theorem pyEq_iff (a b : PyVal) : pyEq a b = true ↔ a = b := by
  cases a <;> cases b <;> simp [pyEq]

theorem pyEq_eq_decide (a b : PyVal) : pyEq a b = decide (a = b) := by
  by_cases h : a = b
  · simp [h, (pyEq_iff b b).2 rfl]
  · simp [h]
    cases hp : pyEq a b
    · rfl
    · exact absurd ((pyEq_iff a b).1 hp) h

/-- Python `str(v)`: decimal digits for an int, identity for a str. -/
def pyStr : PyVal → Str
  | .int n => Nat.toDigits 10 n
  | .str s => s

/-- Python `s.isnumeric()` restricted to ASCII content: nonempty and all
characters are decimal digits. -/
def pyIsNumeric (s : Str) : Bool := !s.isEmpty && s.all Char.isDigit

/-- `str(b).isnumeric()` as used at gs_landsat.py line 103. -/
def strIsNumeric (b : PyVal) : Bool := pyIsNumeric (pyStr b)

theorem digitChar_isDigit : ∀ k : Nat, k < 10 → (Nat.digitChar k).isDigit = true := by
  decide

theorem toDigitsCore_eq_nil (f : Nat) :
    ∀ (n : Nat) (ds : List Char), Nat.toDigitsCore 10 f n ds = [] → ds = [] := by
  induction f with
  | zero => intro n ds h; simpa [Nat.toDigitsCore] using h
  | succ f ih =>
    intro n ds h
    simp only [Nat.toDigitsCore] at h
    split at h
    · exact absurd h (by simp)
    · exact absurd (ih _ _ h) (by simp)

theorem toDigits_ne_nil (n : Nat) : Nat.toDigits 10 n ≠ [] := by
  rw [Nat.toDigits]
  simp only [Nat.toDigitsCore]
  split
  · simp
  · intro h
    exact absurd (toDigitsCore_eq_nil _ _ _ h) (by simp)

theorem toDigitsCore_all_digit (f : Nat) :
    ∀ (n : Nat) (ds : List Char), (∀ c ∈ ds, c.isDigit = true) →
      ∀ c ∈ Nat.toDigitsCore 10 f n ds, c.isDigit = true := by
  induction f with
  | zero => intro n ds h; simpa [Nat.toDigitsCore] using h
  | succ f ih =>
    intro n ds h c hc
    have hd : (Nat.digitChar (n % 10)).isDigit = true :=
      digitChar_isDigit _ (Nat.mod_lt _ (by omega))
    simp only [Nat.toDigitsCore] at hc
    split at hc
    · rcases List.mem_cons.1 hc with h1 | h1
      · exact h1 ▸ hd
      · exact h _ h1
    · refine ih (n / 10) _ ?_ c hc
      intro c' hc'
      rcases List.mem_cons.1 hc' with h1 | h1
      · exact h1 ▸ hd
      · exact h _ h1

/-- `str(n).isnumeric()` is `True` for every natural `n`. -/
theorem strIsNumeric_int (n : Nat) : strIsNumeric (.int n) = true := by
  have h1 : Nat.toDigits 10 n ≠ [] := toDigits_ne_nil n
  have h2 : ∀ c ∈ Nat.toDigits 10 n, c.isDigit = true :=
    toDigitsCore_all_digit (n + 1) n [] (by simp)
  simp only [strIsNumeric, pyStr, pyIsNumeric, Bool.and_eq_true, List.all_eq_true]
  exact ⟨by simpa [List.isEmpty_iff] using h1, h2⟩

/-- `str(n)` for a single-digit `n`. -/
theorem toDigits_single (n : Nat) (h : n < 10) :
    Nat.toDigits 10 n = [Nat.digitChar n] := by
  have h0 : n / 10 = 0 := Nat.div_eq_of_lt h
  have h1 : n % 10 = n := Nat.mod_eq_of_lt h
  simp [Nat.toDigits, Nat.toDigitsCore, h0, h1]

/-- Python `os.path.join(a, b)` (POSIX, two components). -/
def pyJoin (a b : Str) : Str :=
  if b.head? = some '/' then b
  else if a = [] then b
  else if a.getLast? = some '/' then a ++ b
  else a ++ '/' :: b

/-- `get_product_save_path(product_id, sensor_id, path)` =
`os.path.join(path, sensor_id, product_id)`.  The default `path` comes from
the environment variable `$L0lib`; it is passed explicitly here. -/
def get_product_save_path (product_id sensor_id l0lib : Str) : Str :=
  pyJoin (pyJoin l0lib sensor_id) product_id

/-- Python dict assignment `d[k] = v`: replace in place if the key is
present, append otherwise (dicts preserve insertion order). -/
def dictSet (d : List (PyVal × Bool)) (k : PyVal) (v : Bool) : List (PyVal × Bool) :=
  match d with
  | [] => [(k, v)]
  | (k', v') :: rest => if pyEq k' k then (k, v) :: rest else (k', v') :: dictSet rest k v

/-- The local-file name checked for band `b` (gs_landsat.py lines 90-95). -/
def bandFileName (product_id : Str) (b : PyVal) : Str :=
  if pyEq b (.str "MTL".data) then product_id ++ "_MTL.txt".data
  else if pyEq b (.str "BQA".data) then product_id ++ "_BQA.TIF".data
  else product_id ++ "_B".data ++ pyStr b ++ ".TIF".data

/-- The gap-mask file name checked for band `b` (gs_landsat.py line 105). -/
def gmFileName (product_id : Str) (b : PyVal) : Str :=
  product_id ++ "_B".data ++ pyStr b ++ "_GM.TIF".data

/-- The band list after the conditional `BQA`/`MTL` appends of
`check_product_available` (gs_landsat.py lines 80-85). -/
def effectiveBands (bands : List PyVal) (collection : PyVal)
    (check_bqa check_mtl : Bool) : List PyVal :=
  let bands := if check_bqa && pyEq collection (.int 1)
    then bands ++ [.str "BQA".data] else bands
  if check_mtl then bands ++ [.str "MTL".data] else bands

/-- One iteration of the availability loop: record presence of the band's
file and, for an ETM sensor with a numeric band, of its gap-mask file.
`files` is the set of paths present on the local filesystem. -/
def checkStep (save_path product_id sensor : Str) (files : List Str)
    (acc : Bool × List (PyVal × Bool)) (b : PyVal) : Bool × List (PyVal × Bool) :=
  let band_save_path := pyJoin save_path (bandFileName product_id b)
  let store := dictSet acc.2 b (files.contains band_save_path)
  let complete := acc.1 && files.contains band_save_path
  if sensor == "ETM".data && strIsNumeric b then
    let gm_save_path := pyJoin save_path (gmFileName product_id b)
    (complete && files.contains gm_save_path,
      dictSet store (.str ("GM".data ++ pyStr b)) (files.contains gm_save_path))
  else (complete, store)

/-- `check_product_available` (gs_landsat.py lines 56-112): returns the
completeness flag and the per-band status dict. -/
def check_product_available (l0lib product_id : Str) (collection : PyVal)
    (sensor : Str) (bands : List PyVal) (check_bqa check_mtl : Bool)
    (files : List Str) : Bool × List (PyVal × Bool) :=
  let save_path := get_product_save_path product_id sensor l0lib
  (effectiveBands bands collection check_bqa check_mtl).foldl
    (checkStep save_path product_id sensor files) (true, [])

/-- All local paths whose existence `check_product_available` tests: for
every effective band its band file, plus its gap-mask file when the sensor
is `'ETM'` and the band is numeric. -/
def checkedPaths (l0lib product_id : Str) (collection : PyVal) (sensor : Str)
    (bands : List PyVal) (check_bqa check_mtl : Bool) : List Str :=
  let save_path := get_product_save_path product_id sensor l0lib
  (effectiveBands bands collection check_bqa check_mtl).flatMap fun b =>
    pyJoin save_path (bandFileName product_id b) ::
      (if sensor == "ETM".data && strIsNumeric b
        then [pyJoin save_path (gmFileName product_id b)] else [])

/-- The presence test for every path contributed by one band. -/
def bandPresent (save_path product_id sensor : Str) (files : List Str)
    (b : PyVal) : Bool :=
  files.contains (pyJoin save_path (bandFileName product_id b)) &&
    (if sensor == "ETM".data && strIsNumeric b
      then files.contains (pyJoin save_path (gmFileName product_id b)) else true)

theorem checkStep_fst (save_path product_id sensor : Str) (files : List Str)
    (acc : Bool × List (PyVal × Bool)) (b : PyVal) :
    (checkStep save_path product_id sensor files acc b).1 =
      (acc.1 && bandPresent save_path product_id sensor files b) := by
  simp only [checkStep, bandPresent]
  by_cases hc : (sensor == "ETM".data && strIsNumeric b) = true
  · simp only [if_pos hc, Bool.and_assoc]
  · simp only [if_neg hc, Bool.and_true]

theorem check_foldl_fst (save_path product_id sensor : Str) (files : List Str)
    (bs : List PyVal) :
    ∀ acc : Bool × List (PyVal × Bool),
      (bs.foldl (checkStep save_path product_id sensor files) acc).1 =
        (acc.1 && bs.all (bandPresent save_path product_id sensor files)) := by
  induction bs with
  | nil => intro acc; simp
  | cons b rest ih =>
    intro acc
    simp only [List.foldl_cons, List.all_cons, ih, checkStep_fst, Bool.and_assoc]

/-- The completeness flag is `true` iff every effective band passes its
presence test. -/
theorem check_complete_iff_bands (l0lib product_id : Str) (collection : PyVal)
    (sensor : Str) (bands : List PyVal) (check_bqa check_mtl : Bool)
    (files : List Str) :
    (check_product_available l0lib product_id collection sensor bands
        check_bqa check_mtl files).1 = true ↔
      ∀ b ∈ effectiveBands bands collection check_bqa check_mtl,
        bandPresent (get_product_save_path product_id sensor l0lib)
          product_id sensor files b = true := by
  simp only [check_product_available, check_foldl_fst, Bool.true_and,
    List.all_eq_true]

/-- The completeness flag is `true` iff every checked path is present. -/
theorem check_complete_iff (l0lib product_id : Str) (collection : PyVal)
    (sensor : Str) (bands : List PyVal) (check_bqa check_mtl : Bool)
    (files : List Str) :
    (check_product_available l0lib product_id collection sensor bands
        check_bqa check_mtl files).1 = true ↔
      ∀ p ∈ checkedPaths l0lib product_id collection sensor bands
        check_bqa check_mtl, files.contains p = true := by
  rw [check_complete_iff_bands]
  constructor
  · intro h p hp
    simp only [checkedPaths, List.mem_flatMap] at hp
    obtain ⟨b, hb, hp⟩ := hp
    have hband := h b hb
    simp only [bandPresent, Bool.and_eq_true] at hband
    by_cases hc : (sensor == "ETM".data && strIsNumeric b) = true
    · rw [if_pos hc] at hp
      rcases List.mem_cons.1 hp with rfl | hp'
      · exact hband.1
      · rw [List.mem_singleton] at hp'
        subst hp'
        have h2 := hband.2
        rwa [if_pos (by simpa using hc)] at h2
    · rw [if_neg hc] at hp
      rcases List.mem_cons.1 hp with rfl | hp'
      · exact hband.1
      · exact absurd hp' (List.not_mem_nil _)
  · intro h b hb
    simp only [bandPresent, Bool.and_eq_true]
    refine ⟨h _ ?_, ?_⟩
    · simp only [checkedPaths, List.mem_flatMap]
      exact ⟨b, hb, List.mem_cons_self _ _⟩
    · by_cases hc : (sensor == "ETM".data && strIsNumeric b) = true
      · rw [if_pos (by simpa using hc)]
        refine h _ ?_
        simp only [checkedPaths, List.mem_flatMap]
        refine ⟨b, hb, ?_⟩
        rw [if_pos hc]
        simp
      · rw [if_neg (by simpa using hc)]

theorem mem_effectiveBands_of_mem (bands : List PyVal) (collection : PyVal)
    (check_bqa check_mtl : Bool) (b : PyVal) (hb : b ∈ bands) :
    b ∈ effectiveBands bands collection check_bqa check_mtl := by
  simp only [effectiveBands]
  split <;> split <;> simp [hb]

/-- C2: `check_product_available` returns `complete = False` iff at least one
checked artifact file (requested band, auto-added `BQA`/`MTL`, or the
gap-mask file of an ETM numeric band) is absent from the local filesystem;
in particular for sensor `'ETM'` a present numeric-band file with an absent
gap-mask file yields `complete = False`. -/
theorem C2_complete_iff_missing (l0lib product_id : Str) (collection : PyVal)
    (sensor : Str) (bands : List PyVal) (check_bqa check_mtl : Bool)
    (files : List Str) :
    ((check_product_available l0lib product_id collection sensor bands
        check_bqa check_mtl files).1 = false ↔
      ∃ p ∈ checkedPaths l0lib product_id collection sensor bands
        check_bqa check_mtl, files.contains p = false) ∧
    (∀ n : Nat, sensor = "ETM".data → .int n ∈ bands →
      files.contains (pyJoin (get_product_save_path product_id sensor l0lib)
        (bandFileName product_id (.int n))) = true →
      files.contains (pyJoin (get_product_save_path product_id sensor l0lib)
        (gmFileName product_id (.int n))) = false →
      (check_product_available l0lib product_id collection sensor bands
        check_bqa check_mtl files).1 = false) := by
  have hiff : (check_product_available l0lib product_id collection sensor bands
      check_bqa check_mtl files).1 = false ↔
      ∃ p ∈ checkedPaths l0lib product_id collection sensor bands
        check_bqa check_mtl, files.contains p = false := by
    constructor
    · intro hfalse
      by_contra hne
      push_neg at hne
      have hall : ∀ p ∈ checkedPaths l0lib product_id collection sensor bands
          check_bqa check_mtl, files.contains p = true := by
        intro p hp
        cases h : files.contains p
        · exact absurd h (hne p hp)
        · rfl
      have htrue := (check_complete_iff l0lib product_id collection sensor bands
        check_bqa check_mtl files).2 hall
      rw [hfalse] at htrue
      cases htrue
    · rintro ⟨p, hp, hcont⟩
      cases hc : (check_product_available l0lib product_id collection sensor bands
        check_bqa check_mtl files).1
      · rfl
      · have := (check_complete_iff l0lib product_id collection sensor bands
          check_bqa check_mtl files).1 hc p hp
        rw [this] at hcont
        cases hcont
  refine ⟨hiff, ?_⟩
  intro n hsensor hmem _hband hgm
  rw [hiff]
  refine ⟨pyJoin (get_product_save_path product_id sensor l0lib)
    (gmFileName product_id (.int n)), ?_, hgm⟩
  simp only [checkedPaths, List.mem_flatMap]
  refine ⟨.int n, mem_effectiveBands_of_mem _ _ _ _ _ hmem, ?_⟩
  rw [if_pos (by simp [hsensor, strIsNumeric_int])]
  simp

/-- Witness for C2: with sensor `ETM`, band 4's file present but its gap
mask absent, the product is reported incomplete. -/
theorem C2_witness :
    (check_product_available "L".data "P".data (.int 1) "ETM".data
      [.int 4] false false
      ["L/ETM/P/P_B4.TIF".data]).1 = false :=
  (C2_complete_iff_missing "L".data "P".data (.int 1) "ETM".data
      [.int 4] false false ["L/ETM/P/P_B4.TIF".data]).2
    4 rfl (by decide) (by decide) (by decide)

/-- C8 fails as stated: for Collection 2 (which is not the legacy `'PRE'`
generation, hence supports quality masks per the claim) with `check_bqa`
set, `'BQA'` is nevertheless not appended — the code tests `collection == 1`,
not `collection != 'PRE'`. -/
theorem C8_counterexample :
    PyVal.str "BQA".data ∉ effectiveBands [] (.int 2) true false ∧
      pyEq (.int 2) (.str "PRE".data) = false := by
  constructor
  · decide
  · rfl

/-- C8 (amended): `'BQA'` is appended exactly when `check_bqa` is set and
the collection equals `1`; `'MTL'` is appended exactly when `check_mtl` is
set. -/
theorem C8_append_policy (bands : List PyVal) (collection : PyVal)
    (check_bqa check_mtl : Bool) :
    effectiveBands bands collection check_bqa check_mtl =
      bands ++ (if check_bqa && pyEq collection (.int 1)
          then [.str "BQA".data] else [])
        ++ (if check_mtl then [.str "MTL".data] else []) := by
  simp only [effectiveBands]
  split <;> split <;> simp

/-! ## Python `str.split`

`pySplit s sep` models Python `s.split(sep)` for a nonempty separator:
scan left to right, cutting at each non-overlapping occurrence of `sep`.
The fuel argument of `pySplitFuel` is bounded below by the length of the
remaining string; every step consumes at least one character. -/

/-- Prepend a character to the first segment. -/
def consHead (c : Char) : List Str → List Str
  | [] => [[c]]
  | h :: t => (c :: h) :: t

def pySplitFuel (sep : Str) : Nat → Str → List Str
  | 0, s => [s]
  | fuel + 1, s =>
    if sep.isPrefixOf s then [] :: pySplitFuel sep fuel (s.drop sep.length)
    else
      match s with
      | [] => [[]]
      | c :: rest => consHead c (pySplitFuel sep fuel rest)

/-- Python `s.split(sep)` (nonempty `sep`; Python raises on an empty
separator, which never occurs in this code). -/
def pySplit (s sep : Str) : List Str :=
  if sep = [] then [s] else pySplitFuel sep s.length s

/-- Does `sep` occur as a contiguous substring of `s`? -/
def occursSub (sep : Str) : Str → Bool
  | [] => sep.isPrefixOf []
  | c :: r => sep.isPrefixOf (c :: r) || occursSub sep r

theorem isPrefixOf_nil_eq_false (sep : Str) (h : sep ≠ []) :
    sep.isPrefixOf ([] : Str) = false := by
  cases sep with
  | nil => exact absurd rfl h
  | cons a as => rfl

theorem pySplitFuel_congr (sep : Str) (hsep : sep ≠ []) :
    ∀ (f₁ f₂ : Nat) (s : Str), s.length ≤ f₁ → s.length ≤ f₂ →
      pySplitFuel sep f₁ s = pySplitFuel sep f₂ s := by
  intro f₁
  induction f₁ with
  | zero =>
    intro f₂ s h1 _h2
    have hs : s = [] := List.length_eq_zero.1 (Nat.le_zero.1 h1)
    subst hs
    cases f₂ with
    | zero => rfl
    | succ g =>
      simp only [pySplitFuel, isPrefixOf_nil_eq_false sep hsep]
      rfl
  | succ f ih =>
    intro f₂ s h1 h2
    cases f₂ with
    | zero =>
      have hs : s = [] := List.length_eq_zero.1 (Nat.le_zero.1 h2)
      subst hs
      simp only [pySplitFuel, isPrefixOf_nil_eq_false sep hsep]
      rfl
    | succ g =>
      have hsl : 1 ≤ sep.length := by
        cases sep with
        | nil => exact absurd rfl hsep
        | cons a as => simp
      simp only [pySplitFuel]
      by_cases hp : sep.isPrefixOf s = true
      · rw [if_pos hp, if_pos hp]
        congr 1
        exact ih g _ (by simp [List.length_drop]; omega)
          (by simp [List.length_drop]; omega)
      · rw [if_neg hp, if_neg hp]
        cases s with
        | nil => rfl
        | cons c rest =>
          simp only
          congr 1
          exact ih g rest (by simp at h1 ⊢; omega) (by simp at h2 ⊢; omega)

theorem pySplitFuel_no_occurs (sep : Str) (hsep : sep ≠ []) :
    ∀ (f : Nat) (s : Str), s.length ≤ f → occursSub sep s = false →
      pySplitFuel sep f s = [s] := by
  intro f
  induction f with
  | zero =>
    intro s h1 _
    have hs : s = [] := List.length_eq_zero.1 (Nat.le_zero.1 h1)
    subst hs
    rfl
  | succ f ih =>
    intro s h1 hocc
    cases s with
    | nil =>
      simp only [pySplitFuel, isPrefixOf_nil_eq_false sep hsep, Bool.false_eq_true,
        if_false]
    | cons c rest =>
      have hnp : sep.isPrefixOf (c :: rest) = false := by
        cases h : sep.isPrefixOf (c :: rest)
        · rfl
        · simp only [occursSub, h, Bool.true_or] at hocc
          exact hocc
      have hor : occursSub sep rest = false := by
        cases h : occursSub sep rest
        · rfl
        · simp only [occursSub, h, Bool.or_true] at hocc
          exact hocc
      simp only [pySplitFuel, hnp, Bool.false_eq_true, if_false]
      rw [ih rest (by simp at h1; omega) hor]
      rfl

/-- Splitting `sep ++ rest` on `sep`, when `sep` does not occur in `rest`,
yields exactly `['', rest]` — Python's
`(sep + rest).split(sep) == ['', rest]`. -/
theorem pySplit_strip (sep rest : Str) (hsep : sep ≠ [])
    (hocc : occursSub sep rest = false) :
    pySplit (sep ++ rest) sep = [[], rest] := by
  have hsl : 1 ≤ sep.length := by
    cases sep with
    | nil => exact absurd rfl hsep
    | cons a as => simp
  rw [pySplit, if_neg hsep]
  obtain ⟨f, hf⟩ : ∃ f, (sep ++ rest).length = f + 1 := by
    refine ⟨(sep ++ rest).length - 1, ?_⟩
    simp only [List.length_append]
    omega
  rw [hf]
  have hp : sep.isPrefixOf (sep ++ rest) = true := by
    rw [List.isPrefixOf_iff_prefix]
    exact List.prefix_append sep rest
  simp only [pySplitFuel, hp, if_true]
  rw [List.drop_left]
  rw [pySplitFuel_no_occurs sep hsep f rest (by simp [List.length_append] at hf; omega) hocc]

/-! ## `download_file` (gs_landsat.py lines 142-164), as a trace of
filesystem operations

The body is streamed to `<outfile>.part` and only renamed to `outfile`
after the stream completes.  A run is a list of filesystem operations; an
interrupted transfer performs a proper prefix of the full operation list
(chunk writes do not change the set of paths present, so they are not
operations here). -/

inductive FOp where
  | create (p : Str)
  | rename (src dst : Str)
deriving DecidableEq

/-- Effect of one operation on the set of file paths present. -/
def applyOp (files : List Str) : FOp → List Str
  | .create p => p :: files
  | .rename src dst => dst :: files.erase src

def applyOps (files : List Str) (ops : List FOp) : List Str :=
  ops.foldl applyOp files

/-- The final destination path: `os.path.join(save_path, save_name)`, with
`save_name` defaulting to `url.split('/')[-1]`. -/
def downloadOutfile (url save_path : Str) (save_name : Option Str) : Str :=
  pyJoin save_path (save_name.getD ((pySplit url "/".data).getLastD []))

/-- The operations of a complete run of `download_file`: create the
`.part` file, then rename it to the destination. -/
def downloadFileOps (url save_path : Str) (save_name : Option Str) : List FOp :=
  let outfile := downloadOutfile url save_path save_name
  [.create (outfile ++ ".part".data), .rename (outfile ++ ".part".data) outfile]

/-- Outcome of the HTTP transfer: a non-ok status (`IOError` raised before
anything is written), an interruption after `k` filesystem operations
(necessarily before the final rename), or full completion. -/
inductive Transfer where
  | httpError
  | interrupted (k : Nat)
  | completed
deriving DecidableEq

/-- The filesystem operations actually performed for a given outcome. -/
def downloadFileTrace (url save_path : Str) (save_name : Option Str) :
    Transfer → List FOp
  | .httpError => []
  | .interrupted k =>
    (downloadFileOps url save_path save_name).take
      (min k ((downloadFileOps url save_path save_name).length - 1))
  | .completed => downloadFileOps url save_path save_name

theorem outfile_ne_part (out : Str) : out ≠ out ++ ".part".data := by
  intro h
  have := congrArg List.length h
  simp at this

/-- C1: `download_file` never makes a file visible at the final destination
unless the transfer completed in full: a failed or interrupted run leaves
the destination absent (if it was absent before) and adds at most the
`.part` file; only a completed run places the destination. -/
theorem C1_download_file_atomic (url save_path : Str) (save_name : Option Str)
    (files : List Str) (t : Transfer)
    (hout : downloadOutfile url save_path save_name ∉ files) :
    (t ≠ .completed →
      downloadOutfile url save_path save_name ∉
        applyOps files (downloadFileTrace url save_path save_name t) ∧
      ∀ p ∈ applyOps files (downloadFileTrace url save_path save_name t),
        p ∈ files ∨ p = downloadOutfile url save_path save_name ++ ".part".data) ∧
    downloadOutfile url save_path save_name ∈
      applyOps files (downloadFileTrace url save_path save_name .completed) := by
  constructor
  · intro ht
    cases t with
    | completed => exact absurd rfl ht
    | httpError =>
      refine ⟨hout, fun p hp => Or.inl hp⟩
    | interrupted k =>
      cases k with
      | zero =>
        simp only [downloadFileTrace, downloadFileOps, Nat.zero_min, List.take_zero]
        exact ⟨hout, fun p hp => Or.inl hp⟩
      | succ k =>
        have htr : downloadFileTrace url save_path save_name (.interrupted (k + 1))
            = [.create (downloadOutfile url save_path save_name ++ ".part".data)] := by
          have h1 : (downloadFileOps url save_path save_name).length - 1 = 1 := rfl
          have h2 : min (k + 1) 1 = 1 := by omega
          simp only [downloadFileTrace]
          rw [h1, h2]
          rfl
        rw [htr]
        simp only [applyOps, List.foldl_cons, List.foldl_nil, applyOp]
        constructor
        · intro hmem
          rcases List.mem_cons.1 hmem with h | h
          · exact outfile_ne_part _ h
          · exact hout h
        · intro p hp
          rcases List.mem_cons.1 hp with h | h
          · exact Or.inr h
          · exact Or.inl h
  · simp only [downloadFileTrace, downloadFileOps, applyOps, List.foldl_cons,
      List.foldl_nil, applyOp, List.erase_cons_head]
    exact List.mem_cons_self _ _

/-- Witness for C1 at a concrete input: an interrupted transfer leaves the
destination `d/f` absent; a completed one places it. -/
theorem C1_witness :
    downloadOutfile "u".data "d".data (some "f".data) ∉ ([] : List Str) ∧
    downloadOutfile "u".data "d".data (some "f".data) ∉
      applyOps [] (downloadFileTrace "u".data "d".data (some "f".data)
        (.interrupted 1)) ∧
    downloadOutfile "u".data "d".data (some "f".data) ∈
      applyOps [] (downloadFileTrace "u".data "d".data (some "f".data)
        .completed) := by
  have h := C1_download_file_atomic "u".data "d".data (some "f".data) []
    (.interrupted 1) (by decide)
  exact ⟨by decide, (h.1 (by decide)).1, h.2⟩

/-! ## `download_product` (gs_landsat.py lines 168-256)

State: the set of file paths present, the set of directories present, the
values of the loop-local Python variables `url`/`band_save_name`/`verify`
from the most recent branch that assigned them (`none` before any
assignment), and the number of `download_file` calls made (each call is a
network access, successful or not).  `ok` is the HTTP oracle. -/

def gsAccessDefault : Str := "gs://gcp-public-data-landsat/".data

def httpAccessDefault : Str :=
  "https://storage.googleapis.com/gcp-public-data-landsat/".data

inductive PyError where
  | ioError
  | osError
  | nameError
  | indexError
  | attributeError
  | calledProcessError
deriving DecidableEq

/-- Local filesystem: paths of files present and of directories present. -/
structure FS where
  files : List Str
  dirs : List Str
deriving DecidableEq

structure DPState where
  files : List Str
  dirs : List Str
  lastAssign : Option (Str × Str × Bool)
  count : Nat
deriving DecidableEq

/-- `b_gm` (gs_landsat.py lines 220-223): `b[2] == 6` compares the
one-character string `b[2]` with the int `6`, which is `False` in Python. -/
def gmBandStr (c : Char) : Str :=
  if pyEq (.str [c]) (.int 6) then [c] ++ "_VCID_1".data else [c]

/-- The per-band dispatch of the download loop (gs_landsat.py lines
209-234): returns `none` when no branch assigns `url`/`band_save_name`/
`verify` (a string band that is neither `'MTL'` nor `'BQA'` nor
`'GM'`-prefixed), the assigned `(url, band_save_name, verify, gm)`
otherwise, and `IndexError` for a `'GM'` string with no third character. -/
def bandAssign (http_path http_path_im scene product_id : Str) (b : PyVal) :
    Except PyError (Option (Str × Str × Bool × Bool)) :=
  if pyEq b (.str "MTL".data) then
    .ok (some (http_path_im ++ "_MTL.txt".data,
      product_id ++ "_MTL.txt".data, false, false))
  else if pyEq b (.str "BQA".data) then
    .ok (some (http_path_im ++ "_BQA.TIF".data,
      product_id ++ "_BQA.TIF".data, false, false))
  else
    match b with
    | .str s =>
      if s.take 2 = "GM".data then
        match s.get? 2 with
        | none => .error .indexError
        | some c =>
          .ok (some (pyJoin (pyJoin http_path "gap_mask".data)
              (scene ++ "_GM_B".data ++ gmBandStr c ++ ".TIF.gz".data),
            product_id ++ "_B".data ++ gmBandStr c ++ "_GM.TIF.gz".data,
            false, true))
      else .ok none
    | .int n =>
      .ok (some (http_path_im ++ "_B".data ++ pyStr (.int n) ++ ".TIF".data,
        product_id ++ "_B".data ++ pyStr (.int n) ++ ".TIF".data, true, false))

/-- Net filesystem effect of a `download_file` call made by
`download_product`: `IOError` on a non-ok HTTP status; opening the `.part`
file fails (an `OSError`, caught by the same `except IOError`) when the
save directory does not exist; otherwise the destination file appears. -/
def downloadFileNet (ok : Str → Bool) (url save_path save_name : Str)
    (files dirs : List Str) : Except PyError (List Str) :=
  if ok url = false then .error .ioError
  else if save_path ∈ dirs then .ok (pyJoin save_path save_name :: files)
  else .error .ioError

/-- The successful case of `downloadFileNet` agrees with replaying the
completed `download_file` operation trace. -/
theorem downloadFileNet_eq_trace (ok : Str → Bool) (url save_path save_name : Str)
    (files dirs : List Str) (h1 : ok url = true) (h2 : save_path ∈ dirs) :
    downloadFileNet ok url save_path save_name files dirs =
      .ok (applyOps files (downloadFileTrace url save_path (some save_name)
        .completed)) := by
  simp only [downloadFileNet, h1, downloadFileTrace, downloadFileOps, applyOps,
    List.foldl_cons, List.foldl_nil, applyOp, List.erase_cons_head, if_pos h2]
  rfl

/-- The directory path with a trailing separator. -/
def dirSep (d : Str) : Str :=
  if d.getLast? = some '/' then d else d ++ "/".data

/-- Is `f` a path lying under directory `d`? -/
def isUnder (d f : Str) : Bool := (dirSep d).isPrefixOf f

def stripGz (p : Str) : Str := p.take (p.length - 3)

/-- `subprocess.check_output('gunzip <path>')`: `gunzip` fails (a
`CalledProcessError`) when the path does not end in `.gz`, when the file is
missing, or when the decompressed target already exists (no `-f` flag);
otherwise it replaces `<x>.gz` with `<x>`. -/
def gunzipFile (files : List Str) (path : Str) : Except PyError (List Str) :=
  if ".gz".data.isSuffixOf path = false then .error .calledProcessError
  else if path ∈ files then
    if stripGz path ∈ files then .error .calledProcessError
    else .ok (stripGz path :: files.erase path)
  else .error .calledProcessError

/-- The body of the download loop after `url`/`band_save_name`/`verify`/`gm`
are determined (gs_landsat.py lines 239-254): call `download_file`; on
`IOError` with a verify-class artifact call `os.rmdir(save_path)` (which
raises `OSError` when the directory is missing or not empty, uncaught inside
the handler); on `IOError` otherwise warn and continue; after a successful
gap-mask download, gunzip it. -/
def dpProceed (ok : Str → Bool) (save_path url save_name : Str)
    (verify gm : Bool) (st : DPState) : DPState × Option PyError :=
  let st1 : DPState :=
    ⟨st.files, st.dirs, some (url, save_name, verify), st.count + 1⟩
  match downloadFileNet ok url save_path save_name st1.files st1.dirs with
  | .ok files' =>
    if gm then
      match gunzipFile files' (pyJoin save_path save_name) with
      | .ok files'' => (⟨files'', st1.dirs, st1.lastAssign, st1.count⟩, none)
      | .error e => (⟨files', st1.dirs, st1.lastAssign, st1.count⟩, some e)
    else (⟨files', st1.dirs, st1.lastAssign, st1.count⟩, none)
  | .error _ =>
    if verify then
      if save_path ∈ st1.dirs then
        if st1.files.any (isUnder save_path) then (st1, some .osError)
        else (⟨st1.files, st1.dirs.erase save_path, st1.lastAssign, st1.count⟩, none)
      else (st1, some .osError)
    else (st1, none)

/-- One iteration of the download loop for entry `(band, available)`. -/
def dpStep (ok : Str → Bool) (http_path http_path_im scene save_path
    product_id : Str) (st : DPState) (entry : PyVal × Bool) :
    DPState × Option PyError :=
  if entry.2 = true then (st, none)
  else
    match bandAssign http_path http_path_im scene product_id entry.1 with
    | .error e => (st, some e)
    | .ok (some (url, save_name, verify, gm)) =>
      dpProceed ok save_path url save_name verify gm st
    | .ok none =>
      match st.lastAssign with
      | none => (st, some .nameError)
      | some (url, save_name, verify) =>
        dpProceed ok save_path url save_name verify false st

/-- Run the download loop over the band-status entries, stopping at the
first uncaught exception. -/
def dpRun (ok : Str → Bool) (http_path http_path_im scene save_path
    product_id : Str) : DPState → List (PyVal × Bool) → DPState × Option PyError
  | st, [] => (st, none)
  | st, e :: rest =>
    match dpStep ok http_path http_path_im scene save_path product_id st e with
    | (st', none) => dpRun ok http_path http_path_im scene save_path product_id st' rest
    | (st', some err) => (st', some err)

/-- URL derivation of `download_product` (gs_landsat.py lines 186-190):
`http_path = gs_http_access + gs_path.split(gs_gs_access)[1]` and
`http_path_im = http_path + '/' + gs_path.split('/')[-1]`; `none` models the
`IndexError` when the split has no second element. -/
def deriveHttpPaths (gs_gs gs_http gs_path : Str) : Option (Str × Str) :=
  match pySplit gs_path gs_gs with
  | _ :: seg :: _ =>
    let http_path := gs_http ++ seg
    some (http_path,
      http_path ++ "/".data ++ (pySplit gs_path "/".data).getLastD [])
  | _ => none

/-- `download_product` (gs_landsat.py lines 168-256).  Returns the final
filesystem, the number of `download_file` calls made, and the uncaught
exception if one was raised.  The `collection` argument is accepted and
never used, as in the source. -/
def download_product (ok : Str → Bool) (l0lib product_id sensor_id : Str)
    (collection : PyVal) (gs_path : Str) (bands : List (PyVal × Bool))
    (gs_gs gs_http : Str) (fs : FS) : FS × Nat × Option PyError :=
  match deriveHttpPaths gs_gs gs_http gs_path with
  | none => (fs, 0, some .indexError)
  | some (http_path, http_path_im) =>
    let scene := (pySplit gs_path "/".data).getLastD []
    let save_path := get_product_save_path product_id sensor_id l0lib
    let dirs := if save_path ∈ fs.dirs then fs.dirs else save_path :: fs.dirs
    let r := dpRun ok http_path http_path_im scene save_path product_id
      ⟨fs.files, dirs, none, 0⟩ bands
    (⟨r.1.files, r.1.dirs⟩, r.1.count, r.2)

/-- Catalog row fields used by the fetch orchestrator. -/
structure Row where
  PRODUCT_ID : Str
  SENSOR_ID : Str
  COLLECTION_NUMBER : PyVal
  BASE_URL : Str
deriving DecidableEq

/-- `download_products` (gs_landsat.py lines 260-273): for each record,
check availability (with default `check_bqa=False, check_mtl=False`) and,
if incomplete, download via `download_product`; an uncaught exception
aborts the batch.  `count` accumulates `download_file` calls. -/
def download_products (ok : Str → Bool) (l0lib : Str) (bands : List PyVal) :
    List Row → FS → Nat → FS × Nat × Option PyError
  | [], fs, count => (fs, count, none)
  | r :: rest, fs, count =>
    let check := check_product_available l0lib r.PRODUCT_ID r.COLLECTION_NUMBER
      r.SENSOR_ID bands false false fs.files
    if check.1 = true then download_products ok l0lib bands rest fs count
    else
      match download_product ok l0lib r.PRODUCT_ID r.SENSOR_ID
        r.COLLECTION_NUMBER r.BASE_URL check.2 gsAccessDefault
        httpAccessDefault fs with
      | (fs', c, none) => download_products ok l0lib bands rest fs' (count + c)
      | (fs', c, some e) => (fs', count + c, some e)

theorem bandAssign_int (http_path http_path_im scene product_id : Str) (n : Nat) :
    bandAssign http_path http_path_im scene product_id (.int n) =
      .ok (some (http_path_im ++ "_B".data ++ pyStr (.int n) ++ ".TIF".data,
        product_id ++ "_B".data ++ pyStr (.int n) ++ ".TIF".data, true, false)) := by
  simp [bandAssign, pyEq]

theorem append_b4 (x : Str) :
    x ++ "_B".data ++ pyStr (.int 4) ++ ".TIF".data = x ++ "_B4.TIF".data := by
  simp only [List.append_assoc]
  congr 1

/-- C4 fails as stated: a base path that starts with the object-storage
prefix but contains it a second time is truncated by Python's
`split(gs_gs_access)[1]`, so the derived `http_path` is not the plain
prefix substitution. -/
theorem C4_counterexample :
    gsAccessDefault.isPrefixOf
      "gs://gcp-public-data-landsat/gs://gcp-public-data-landsat/x".data = true ∧
    (deriveHttpPaths gsAccessDefault httpAccessDefault
        "gs://gcp-public-data-landsat/gs://gcp-public-data-landsat/x".data).map
        Prod.fst ≠
      some (httpAccessDefault ++ "gs://gcp-public-data-landsat/x".data) := by
  constructor
  · decide
  · decide

/-- C4 (amended): for every base path that is the object-storage prefix
followed by a remainder in which the prefix does not occur again,
`download_product` derives the HTTP path by prefix substitution and the
image path by appending `/` and the trailing scene name
(`gs_path.split('/')[-1]`); numeric band 4 then yields the URL
`<http_path_im>_B4.TIF`. -/
theorem C4_url_derivation (rest product_id : Str)
    (hocc : occursSub gsAccessDefault rest = false) :
    deriveHttpPaths gsAccessDefault httpAccessDefault (gsAccessDefault ++ rest) =
      some (httpAccessDefault ++ rest,
        httpAccessDefault ++ rest ++ "/".data ++
          (pySplit (gsAccessDefault ++ rest) "/".data).getLastD []) ∧
    bandAssign (httpAccessDefault ++ rest)
        (httpAccessDefault ++ rest ++ "/".data ++
          (pySplit (gsAccessDefault ++ rest) "/".data).getLastD [])
        ((pySplit (gsAccessDefault ++ rest) "/".data).getLastD []) product_id
        (.int 4) =
      .ok (some (httpAccessDefault ++ rest ++ "/".data ++
          (pySplit (gsAccessDefault ++ rest) "/".data).getLastD [] ++
            "_B4.TIF".data,
        product_id ++ "_B4.TIF".data, true, false)) := by
  constructor
  · simp only [deriveHttpPaths]
    rw [pySplit_strip gsAccessDefault rest (by decide) hocc]
  · rw [bandAssign_int, append_b4, append_b4]

/-- Witness for C4 (amended) at the concrete remainder `LT05/s`. -/
theorem C4_witness :
    deriveHttpPaths gsAccessDefault httpAccessDefault
        (gsAccessDefault ++ "LT05/s".data) =
      some (httpAccessDefault ++ "LT05/s".data,
        httpAccessDefault ++ "LT05/s".data ++ "/".data ++
          (pySplit (gsAccessDefault ++ "LT05/s".data) "/".data).getLastD []) :=
  (C4_url_derivation "LT05/s".data "P".data (by decide)).1

/-- C6: the band-6 gap-mask special case is dead code.  `b[2] == 6`
compares the one-character string `b[2]` with the int `6`, which is always
`False` in Python, so `'GM6'` derives the `gap_mask/` URL with suffix
`_GM_B6.TIF.gz` — never `_GM_B6_VCID_1.TIF.gz`. -/
theorem C6_gm6_no_vcid :
    bandAssign "H".data "HI".data "S".data "P".data (.str "GM6".data) =
      .ok (some ("H/gap_mask/S_GM_B6.TIF.gz".data, "P_B6_GM.TIF.gz".data,
        false, true)) ∧
    pyEq (.str ['6']) (.int 6) = false :=
  ⟨rfl, rfl⟩

/-- C3: the claimed failure policy for a verify-class (numeric band)
artifact does not match the code.  With a sibling file already present in
the save directory, a failing numeric-band download leads the handler to
call `os.rmdir` on a non-empty directory, which raises an uncaught
`OSError`: the directory and the sibling survive and the batch aborts.  A
failing `MTL` download, by contrast, only warns: siblings intact, no
exception. -/
theorem C3_rmdir_nonempty_aborts :
    download_product (fun _ => false) "L".data "P".data "TM".data (.int 1)
        "gs://gcp-public-data-landsat/LT05/x".data [(.int 4, false)]
        gsAccessDefault httpAccessDefault
        ⟨["L/TM/P/P_MTL.txt".data], ["L/TM/P".data]⟩ =
      (⟨["L/TM/P/P_MTL.txt".data], ["L/TM/P".data]⟩, 1, some .osError) ∧
    download_product (fun _ => false) "L".data "P".data "TM".data (.int 1)
        "gs://gcp-public-data-landsat/LT05/x".data [(.str "MTL".data, false)]
        gsAccessDefault httpAccessDefault
        ⟨["L/TM/P/P_B4.TIF".data], ["L/TM/P".data]⟩ =
      (⟨["L/TM/P/P_B4.TIF".data], ["L/TM/P".data]⟩, 1, none) :=
  ⟨rfl, rfl⟩

/-- C10: a string band other than `'MTL'`/`'BQA'` and not `'GM'`-prefixed
(e.g. `'B1'`, as passed by the example driver) is assigned no URL, save
name or verify flag by any branch of the loop: if the loop variables are
still unassigned the iteration raises `NameError`; otherwise the stale
`url`/`band_save_name`/`verify` of the previous artifact are silently
reused. -/
theorem C10_unhandled_band (ok : Str → Bool) (http_path http_path_im scene
    save_path product_id : Str) (s : Str) (st : DPState)
    (h1 : s ≠ "MTL".data) (h2 : s ≠ "BQA".data) (h3 : s.take 2 ≠ "GM".data) :
    (st.lastAssign = none →
      dpStep ok http_path http_path_im scene save_path product_id st
        (.str s, false) = (st, some .nameError)) ∧
    (∀ url save_name verify, st.lastAssign = some (url, save_name, verify) →
      dpStep ok http_path http_path_im scene save_path product_id st
        (.str s, false) = dpProceed ok save_path url save_name verify false st) := by
  have e1 : pyEq (.str s) (.str "MTL".data) = false := by
    simp [pyEq, h1]
  have e2 : pyEq (.str s) (.str "BQA".data) = false := by
    simp [pyEq, h2]
  have hassign : bandAssign http_path http_path_im scene product_id (.str s) =
      .ok none := by
    simp only [bandAssign, e1, e2, Bool.false_eq_true, if_false, if_neg h3]
  constructor
  · intro hla
    simp [dpStep, hassign, hla]
  · intro url save_name verify hla
    simp [dpStep, hassign, hla]

/-- Witness for C10: with no previous assignment, the artifact `'B1'`
raises `NameError` without any network access. -/
theorem C10_witness :
    dpStep (fun _ => true) "h".data "hi".data "s".data "d".data "P".data
        ⟨[], ["d".data], none, 0⟩ (.str "B1".data, false) =
      (⟨[], ["d".data], none, 0⟩, some .nameError) :=
  (C10_unhandled_band (fun _ => true) "h".data "hi".data "s".data "d".data
    "P".data "B1".data ⟨[], ["d".data], none, 0⟩ (by decide) (by decide)
    (by decide)).1 rfl

/-! ## `filter_collection_pre` (gs_landsat.py lines 314-331)

A query-result row.  After `execute_query`, the dataframe index is
`PRODUCT_ID`, and rows whose catalog `PRODUCT_ID` was empty (always the
`'PRE'` rows) carry `SCENE_ID` as their `PRODUCT_ID`. -/

structure QRow where
  PRODUCT_ID : Str
  SCENE_ID : Str
  COLLECTION_NUMBER : PyVal
deriving DecidableEq

/-- `df.SCENE_ID.groupby(df.SCENE_ID).count()` evaluated at one scene id. -/
def sceneIdCount (df : List QRow) (sid : Str) : Nat :=
  df.countP fun r => r.SCENE_ID == sid

/-- The `SCENE_ID_COUNT` value a row receives from
`df.join(counts, rsuffix='_COUNT')`: the join is on the dataframe index
(`PRODUCT_ID`) against the counts' index (the distinct `SCENE_ID` values);
an index value that is no scene identifier gets `NaN` (`none`). -/
def joinedCount (df : List QRow) (r : QRow) : Option Nat :=
  if df.any (fun s => s.SCENE_ID == r.PRODUCT_ID) then
    some (sceneIdCount df r.PRODUCT_ID)
  else none

/-- `filter_collection_pre`: keep the rows whose joined count equals `1`
and whose collection generation is `'PRE'` (the dropped helper column is
never materialised on the row here). -/
def filter_collection_pre (df : List QRow) : List QRow :=
  df.filter fun r =>
    (joinedCount df r == some 1) && pyEq r.COLLECTION_NUMBER (.str "PRE".data)

theorem filter_pre_characterization (df : List QRow)
    (hidx : ∀ r ∈ df, pyEq r.COLLECTION_NUMBER (.str "PRE".data) = true →
      r.PRODUCT_ID = r.SCENE_ID) :
    filter_collection_pre df = df.filter fun r =>
      (sceneIdCount df r.SCENE_ID == 1) &&
        pyEq r.COLLECTION_NUMBER (.str "PRE".data) := by
  apply List.filter_congr
  intro r hr
  by_cases hpre : pyEq r.COLLECTION_NUMBER (.str "PRE".data) = true
  · have heq := hidx r hr hpre
    have hj : joinedCount df r = some (sceneIdCount df r.SCENE_ID) := by
      rw [joinedCount, if_pos, heq]
      refine List.any_eq_true.2 ⟨r, hr, ?_⟩
      rw [heq]
      exact beq_self_eq_true _
    rw [hj]
    rfl
  · have hpre' : pyEq r.COLLECTION_NUMBER (.str "PRE".data) = false :=
      Bool.not_eq_true _ ▸ hpre
    rw [hpre']
    simp

/-- C7: in a query result where scene `X` appears under generations
`{1, 'PRE'}` (scene-id count 2) and scene `Y` appears only under `'PRE'`
(count 1), `filter_collection_pre` returns exactly the `Y` rows; in
general it keeps exactly the rows whose scene identifier occurs once and
whose generation is `'PRE'`. -/
theorem C7_filter_pre_only (df : List QRow) (X Y : Str) (hXY : X ≠ Y)
    (hidx : ∀ r ∈ df, pyEq r.COLLECTION_NUMBER (.str "PRE".data) = true →
      r.PRODUCT_ID = r.SCENE_ID)
    (hscenes : ∀ r ∈ df, r.SCENE_ID = X ∨ r.SCENE_ID = Y)
    (hX : sceneIdCount df X = 2) (hY : sceneIdCount df Y = 1)
    (hYpre : ∀ r ∈ df, r.SCENE_ID = Y →
      pyEq r.COLLECTION_NUMBER (.str "PRE".data) = true) :
    filter_collection_pre df = (df.filter fun r => r.SCENE_ID == Y) ∧
    filter_collection_pre df = (df.filter fun r =>
      (sceneIdCount df r.SCENE_ID == 1) &&
        pyEq r.COLLECTION_NUMBER (.str "PRE".data)) := by
  have hchar := filter_pre_characterization df hidx
  refine ⟨?_, hchar⟩
  rw [hchar]
  apply List.filter_congr
  intro r hr
  rcases hscenes r hr with h | h
  · rw [h, hX]
    have h1 : ((2 : Nat) == 1) = false := rfl
    have h2 : (X == Y) = false := by
      cases hb : X == Y
      · rfl
      · exact absurd (by simpa using hb) hXY
    rw [h1, h2, Bool.false_and]
  · rw [h, hY, hYpre r hr h]
    have h1 : ((1 : Nat) == 1) = true := rfl
    have h2 : (Y == Y) = true := beq_self_eq_true _
    rw [h1, h2, Bool.true_and]

/-- Witness for C7: scene `X` under generations 1 and `PRE`, scene `Y`
only under `PRE`: only the `Y` row survives. -/
theorem C7_witness :
    filter_collection_pre
        [⟨"PX1".data, "X".data, .int 1⟩,
         ⟨"X".data, "X".data, .str "PRE".data⟩,
         ⟨"Y".data, "Y".data, .str "PRE".data⟩] =
      [⟨"Y".data, "Y".data, .str "PRE".data⟩] := by
  have h := (C7_filter_pre_only
    [⟨"PX1".data, "X".data, .int 1⟩,
     ⟨"X".data, "X".data, .str "PRE".data⟩,
     ⟨"Y".data, "Y".data, .str "PRE".data⟩] "X".data "Y".data
    (by decide) (by decide) (by decide) (by decide) (by decide) (by decide)).1
  rw [h]
  rfl

/-! ## C9: in-place mutation of the `bands` argument

`check_product_available` appends to `bands` in place.  `BandsArg`
distinguishes a tuple argument (immutable, `.append` raises
`AttributeError`) from a list argument (the caller's list object is
mutated).  When `check_bqa and collection == 1` holds, `bands = list(bands)`
first rebinds the name to a fresh copy, so the caller is untouched. -/

inductive BandsArg where
  | tup (l : List PyVal)
  | lst (l : List PyVal)
deriving DecidableEq

def BandsArg.vals : BandsArg → List PyVal
  | .tup l => l
  | .lst l => l

/-- `check_product_available` with Python argument-passing semantics for
`bands`: returns the usual result paired with the caller-visible `bands`
object after the call (the availability computation itself coincides with
`check_product_available`, whose `effectiveBands` mirrors the appends). -/
def check_product_available_py (l0lib product_id : Str) (collection : PyVal)
    (sensor : Str) (bands : BandsArg) (check_bqa check_mtl : Bool)
    (files : List Str) :
    Except PyError ((Bool × List (PyVal × Bool)) × BandsArg) :=
  if check_bqa && pyEq collection (.int 1) then
    .ok (check_product_available l0lib product_id collection sensor bands.vals
      check_bqa check_mtl files, bands)
  else if check_mtl then
    match bands with
    | .tup _ => .error .attributeError
    | .lst l =>
      .ok (check_product_available l0lib product_id collection sensor l
        check_bqa check_mtl files, .lst (l ++ [.str "MTL".data]))
  else
    .ok (check_product_available l0lib product_id collection sensor bands.vals
      check_bqa check_mtl files, bands)

/-- `check_products_available` (gs_landsat.py lines 116-138) with defaults
`check_bqa=True, check_mtl=True`: iterate the rows, threading the shared
`bands` object through every call. -/
def check_products_available_py (l0lib : Str) (files : List Str) :
    List Row → BandsArg →
    Except PyError (List (Bool × List (PyVal × Bool)) × BandsArg)
  | [], bands => .ok ([], bands)
  | r :: rest, bands =>
    match check_product_available_py l0lib r.PRODUCT_ID r.COLLECTION_NUMBER
      r.SENSOR_ID bands true true files with
    | .error e => .error e
    | .ok (res, bands') =>
      match check_products_available_py l0lib files rest bands' with
      | .error e => .error e
      | .ok (results, bands'') => .ok (res :: results, bands'')

/-- C9: with `check_mtl=True` and no copy made (`check_bqa` unset or
collection not `1`), a tuple `bands` raises `AttributeError`; a list
`bands` is mutated in the caller (`'MTL'` appended); iterating a dataframe
of non-Collection-1 rows therefore grows the shared band list by one
duplicate `'MTL'` sentinel per row. -/
theorem C9_bands_mutated_in_place :
    (∀ (l0lib product_id : Str) (collection : PyVal) (sensor : Str)
      (l : List PyVal) (files : List Str) (check_bqa : Bool),
      (check_bqa && pyEq collection (.int 1)) = false →
      check_product_available_py l0lib product_id collection sensor (.tup l)
        check_bqa true files = .error .attributeError) ∧
    (∀ (l0lib product_id : Str) (collection : PyVal) (sensor : Str)
      (l : List PyVal) (files : List Str) (check_bqa : Bool),
      (check_bqa && pyEq collection (.int 1)) = false →
      check_product_available_py l0lib product_id collection sensor (.lst l)
        check_bqa true files =
        .ok (check_product_available l0lib product_id collection sensor l
          check_bqa true files, .lst (l ++ [.str "MTL".data]))) ∧
    (∀ (l0lib : Str) (files : List Str) (rows : List Row) (l : List PyVal),
      (∀ r ∈ rows, pyEq r.COLLECTION_NUMBER (.int 1) = false) →
      ∃ results, check_products_available_py l0lib files rows (.lst l) =
        .ok (results,
          .lst (l ++ List.replicate rows.length (.str "MTL".data)))) := by
  refine ⟨?_, ?_, ?_⟩
  · intro l0lib product_id collection sensor l files check_bqa h
    simp [check_product_available_py, h]
  · intro l0lib product_id collection sensor l files check_bqa h
    simp [check_product_available_py, h]
  · intro l0lib files rows
    induction rows with
    | nil =>
      intro l _
      exact ⟨[], by simp [check_products_available_py]⟩
    | cons r rest ih =>
      intro l hall
      have hr : pyEq r.COLLECTION_NUMBER (.int 1) = false :=
        hall r (List.mem_cons_self _ _)
      obtain ⟨results, hrest⟩ := ih (l ++ [.str "MTL".data])
        (fun r' hr' => hall r' (List.mem_cons_of_mem _ hr'))
      refine ⟨check_product_available l0lib r.PRODUCT_ID r.COLLECTION_NUMBER
        r.SENSOR_ID l true true files :: results, ?_⟩
      simp only [check_products_available_py, check_product_available_py, hr,
        Bool.true_and, Bool.false_eq_true, if_false, if_true, hrest]
      rw [List.append_assoc]
      rfl

/-- Witness for C9: a tuple argument with a `'PRE'` collection raises
`AttributeError`; two `'PRE'` rows leave two extra `'MTL'` entries on the
shared list. -/
theorem C9_witness :
    check_product_available_py "L".data "P".data (.str "PRE".data) "TM".data
        (.tup [.int 4]) true true [] = .error .attributeError ∧
    ∃ results, check_products_available_py "L".data []
        [⟨"P".data, "TM".data, .str "PRE".data, "g".data⟩,
         ⟨"Q".data, "TM".data, .str "PRE".data, "g".data⟩] (.lst [.int 4]) =
      .ok (results, .lst [.int 4, .str "MTL".data, .str "MTL".data]) := by
  constructor
  · exact C9_bands_mutated_in_place.1 "L".data "P".data (.str "PRE".data)
      "TM".data [.int 4] [] true (by decide)
  · obtain ⟨results, h⟩ := C9_bands_mutated_in_place.2.2 "L".data []
      [⟨"P".data, "TM".data, .str "PRE".data, "g".data⟩,
       ⟨"Q".data, "TM".data, .str "PRE".data, "g".data⟩] [.int 4] (by decide)
    exact ⟨results, h⟩

/-! ## Towards C5: helper lemmas on dicts, paths and digits -/

theorem contains_iff_mem (l : List Str) (a : Str) : l.contains a = true ↔ a ∈ l :=
  List.elem_iff

theorem effectiveBands_ff (bands : List PyVal) (collection : PyVal) :
    effectiveBands bands collection false false = bands := by
  simp [effectiveBands]

theorem bandFileName_int (product_id : Str) (n : Nat) :
    bandFileName product_id (.int n) =
      product_id ++ "_B".data ++ pyStr (.int n) ++ ".TIF".data := by
  simp [bandFileName, pyEq]

theorem mem_dictSet_weak (d : List (PyVal × Bool)) (k : PyVal) (v : Bool)
    (kv : PyVal × Bool) (h : kv ∈ dictSet d k v) : kv = (k, v) ∨ kv ∈ d := by
  induction d with
  | nil => simpa [dictSet] using h
  | cons hd tl ih =>
    obtain ⟨k', v'⟩ := hd
    simp only [dictSet] at h
    split at h
    · rcases List.mem_cons.1 h with h1 | h1
      · exact Or.inl h1
      · exact Or.inr (List.mem_cons_of_mem _ h1)
    · rcases List.mem_cons.1 h with h1 | h1
      · exact Or.inr (h1 ▸ List.mem_cons_self _ _)
      · rcases ih h1 with h2 | h2
        · exact Or.inl h2
        · exact Or.inr (List.mem_cons_of_mem _ h2)

theorem pair_mem_dictSet_self (d : List (PyVal × Bool)) (k : PyVal) (v : Bool) :
    (k, v) ∈ dictSet d k v := by
  induction d with
  | nil => simp [dictSet]
  | cons hd tl ih =>
    obtain ⟨k', v'⟩ := hd
    simp only [dictSet]
    split
    · exact List.mem_cons_self _ _
    · exact List.mem_cons_of_mem _ ih

theorem pair_mem_dictSet (d : List (PyVal × Bool)) (k₀ : PyVal) (v₀ : Bool)
    (k : PyVal) (v : Bool) (h : (k₀, v₀) ∈ d) (hk : k = k₀ → v = v₀) :
    (k₀, v₀) ∈ dictSet d k v := by
  by_cases heq : k = k₀
  · have hv := hk heq
    subst heq
    subst hv
    exact pair_mem_dictSet_self d k v
  · induction d with
    | nil => exact absurd h (List.not_mem_nil _)
    | cons hd tl ih =>
      obtain ⟨k', v'⟩ := hd
      simp only [dictSet]
      split
      · rename_i hpe
        have hk' : k' = k := (pyEq_iff _ _).1 hpe
        rcases List.mem_cons.1 h with h1 | h1
        · have h2 : k₀ = k' := congrArg Prod.fst h1
          exact absurd (h2 ▸ hk').symm heq
        · exact List.mem_cons_of_mem _ h1
      · rcases List.mem_cons.1 h with h1 | h1
        · exact h1 ▸ List.mem_cons_self _ _
        · exact List.mem_cons_of_mem _ (ih h1)

theorem dictSet_pairwise (d : List (PyVal × Bool)) (k : PyVal) (v : Bool)
    (h : d.Pairwise fun a b => a.1 ≠ b.1) :
    (dictSet d k v).Pairwise fun a b => a.1 ≠ b.1 := by
  induction d with
  | nil => simp [dictSet]
  | cons hd tl ih =>
    obtain ⟨k', v'⟩ := hd
    rw [List.pairwise_cons] at h
    simp only [dictSet]
    split
    · rename_i hpe
      have hk' : k' = k := (pyEq_iff _ _).1 hpe
      rw [List.pairwise_cons]
      exact ⟨fun x hx => hk' ▸ h.1 x hx, h.2⟩
    · rename_i hpe
      have hk' : k' ≠ k := fun he => hpe ((pyEq_iff _ _).2 he)
      rw [List.pairwise_cons]
      refine ⟨fun x hx => ?_, ih h.2⟩
      rcases mem_dictSet_weak tl k v x hx with h1 | h1
      · rw [h1]
        exact hk'
      · exact h.1 x h1

/-- The prefix that `os.path.join` puts before its second component, as a
function of the directory and the component's first character. -/
def joinPre (d : Str) (h : Option Char) : Str :=
  if h = some '/' then []
  else if d = [] then []
  else if d.getLast? = some '/' then d
  else d ++ "/".data

theorem pyJoin_eq_joinPre (d x : Str) : pyJoin d x = joinPre d x.head? ++ x := by
  simp only [pyJoin, joinPre]
  by_cases h1 : x.head? = some '/'
  · rw [if_pos h1, if_pos h1]
    rfl
  · rw [if_neg h1, if_neg h1]
    by_cases h2 : d = []
    · rw [if_pos h2, if_pos h2]
      rfl
    · rw [if_neg h2, if_neg h2]
      by_cases h3 : d.getLast? = some '/'
      · rw [if_pos h3, if_pos h3]
      · rw [if_neg h3, if_neg h3]
        simp

theorem pyJoin_inj_of_head (d x y : Str) (hh : x.head? = y.head?)
    (h : pyJoin d x = pyJoin d y) : x = y := by
  rw [pyJoin_eq_joinPre, pyJoin_eq_joinPre, hh] at h
  exact List.append_cancel_left h

theorem pyJoin_append_of_ne_nil (d x z : Str) (hx : x ≠ []) :
    pyJoin d (x ++ z) = pyJoin d x ++ z := by
  rw [pyJoin_eq_joinPre, pyJoin_eq_joinPre, List.head?_append_of_ne_nil _ hx,
    List.append_assoc]

theorem stripGz_append (x : Str) : stripGz (x ++ ".gz".data) = x := by
  have h3 : (".gz".data : Str).length = 3 := rfl
  simp only [stripGz, List.length_append, h3, Nat.add_sub_cancel]
  exact List.take_left x _

theorem gz_isSuffixOf_append (x : Str) :
    ".gz".data.isSuffixOf (x ++ ".gz".data) = true :=
  List.isSuffixOf_iff_suffix.2 (List.suffix_append x _)

theorem digitChar_inj10 :
    ∀ n, n < 10 → ∀ m, m < 10 → Nat.digitChar n = Nat.digitChar m → n = m := by
  decide

theorem cons_append_len_ne (a b : Char) (x y : Str) (h : x.length ≠ y.length) :
    ([a] ++ x : Str) ≠ [b] ++ y := by
  intro he
  have hl := congrArg List.length he
  simp only [List.length_append, List.length_cons, List.length_nil] at hl
  omega

theorem cons_append_inj (a b : Char) (x : Str) (h : ([a] ++ x : Str) = [b] ++ x) :
    a = b := by
  have h2 : a = b ∧ x = x := by
    rw [← List.cons.injEq]
    simpa using h
  exact h2.1

theorem pySplitFuel_ne_nil (sep : Str) :
    ∀ (f : Nat) (s : Str), pySplitFuel sep f s ≠ [] := by
  intro f
  induction f with
  | zero => intro s; simp [pySplitFuel]
  | succ f ih =>
    intro s
    simp only [pySplitFuel]
    split
    · simp
    · cases s with
      | nil => simp
      | cons c rest =>
        simp only
        cases h : pySplitFuel sep f rest with
        | nil => exact absurd h (ih rest)
        | cons hd tl => simp [consHead, h]

theorem pySplit_append_cons (sep rest : Str) (hsep : sep ≠ []) :
    ∃ tail, pySplit (sep ++ rest) sep = [] :: tail ∧ tail ≠ [] := by
  rw [pySplit, if_neg hsep]
  obtain ⟨f, hf⟩ : ∃ f, (sep ++ rest).length = f + 1 := by
    refine ⟨(sep ++ rest).length - 1, ?_⟩
    have h1 : 1 ≤ sep.length := by
      cases sep with
      | nil => exact absurd rfl hsep
      | cons a as => simp
    simp only [List.length_append]
    omega
  rw [hf]
  have hp : sep.isPrefixOf (sep ++ rest) = true :=
    List.isPrefixOf_iff_prefix.2 (List.prefix_append _ _)
  simp only [pySplitFuel, hp, if_true]
  exact ⟨_, rfl, pySplitFuel_ne_nil _ _ _⟩

theorem deriveHttpPaths_some (gs_http rest : Str) :
    ∃ hp im, deriveHttpPaths gsAccessDefault gs_http
      (gsAccessDefault ++ rest) = some (hp, im) := by
  obtain ⟨tail, htail, hne⟩ :=
    pySplit_append_cons gsAccessDefault rest (by decide)
  obtain ⟨seg, tail', rfl⟩ := List.exists_cons_of_ne_nil hne
  refine ⟨gs_http ++ seg, gs_http ++ seg ++ "/".data ++
    (pySplit (gsAccessDefault ++ rest) "/".data).getLastD [], ?_⟩
  simp only [deriveHttpPaths, htail]

/-! ## Towards C5: the status dict built by `check_product_available`
(`check_bqa = check_mtl = False`, all-numeric bands) -/

def bandPath (l0lib product sensor : Str) (n : Nat) : Str :=
  pyJoin (get_product_save_path product sensor l0lib)
    (bandFileName product (.int n))

def gmPath (l0lib product sensor : Str) (n : Nat) : Str :=
  pyJoin (get_product_save_path product sensor l0lib)
    (gmFileName product (.int n))

def gmKeyV (n : Nat) : PyVal := .str ("GM".data ++ pyStr (.int n))

/-- The store entry for numeric band `n`. -/
def bpair (l0lib product sensor : Str) (files₀ : List Str) (n : Nat) :
    PyVal × Bool :=
  (.int n, files₀.contains (bandPath l0lib product sensor n))

/-- The store entry for the gap mask of numeric band `n`. -/
def gpair (l0lib product sensor : Str) (files₀ : List Str) (n : Nat) :
    PyVal × Bool :=
  (gmKeyV n, files₀.contains (gmPath l0lib product sensor n))

theorem store_shape (l0lib product sensor : Str) (files₀ : List Str)
    (bandsN₀ : List Nat) :
    ∀ (bandsN : List Nat), (∀ n ∈ bandsN, n ∈ bandsN₀) →
    ∀ (acc : Bool × List (PyVal × Bool)),
    (∀ kv ∈ acc.2, (∃ n ∈ bandsN₀, kv = bpair l0lib product sensor files₀ n) ∨
      (∃ n ∈ bandsN₀, kv = gpair l0lib product sensor files₀ n)) →
    ∀ kv ∈ ((bandsN.map PyVal.int).foldl
        (checkStep (get_product_save_path product sensor l0lib) product sensor
          files₀) acc).2,
      (∃ n ∈ bandsN₀, kv = bpair l0lib product sensor files₀ n) ∨
      (∃ n ∈ bandsN₀, kv = gpair l0lib product sensor files₀ n) := by
  intro bandsN
  induction bandsN with
  | nil => intro _ acc hacc kv hkv; exact hacc kv hkv
  | cons m rest ih =>
    intro hsub acc hacc
    simp only [List.map_cons, List.foldl_cons]
    apply ih (fun n hn => hsub n (List.mem_cons_of_mem _ hn))
    intro kv hkv
    have hm : m ∈ bandsN₀ := hsub m (List.mem_cons_self _ _)
    simp only [checkStep] at hkv
    split at hkv
    · rcases mem_dictSet_weak _ _ _ kv hkv with h1 | h1
      · exact Or.inr ⟨m, hm, by rw [h1]; rfl⟩
      · rcases mem_dictSet_weak _ _ _ kv h1 with h2 | h2
        · exact Or.inl ⟨m, hm, by rw [h2]; rfl⟩
        · exact hacc kv h2
    · rcases mem_dictSet_weak _ _ _ kv hkv with h1 | h1
      · exact Or.inl ⟨m, hm, by rw [h1]; rfl⟩
      · exact hacc kv h1

theorem store_pairwise_all (save product sensor : Str) (files₀ : List Str) :
    ∀ (bs : List PyVal) (acc : Bool × List (PyVal × Bool)),
    acc.2.Pairwise (fun a b => a.1 ≠ b.1) →
    ((bs.foldl (checkStep save product sensor files₀) acc).2).Pairwise
      (fun a b => a.1 ≠ b.1) := by
  intro bs
  induction bs with
  | nil => intro acc h; exact h
  | cons b rest ih =>
    intro acc hacc
    simp only [List.foldl_cons]
    apply ih
    simp only [checkStep]
    split
    · exact dictSet_pairwise _ _ _ (dictSet_pairwise _ _ _ hacc)
    · exact dictSet_pairwise _ _ _ hacc

theorem checkStep_preserve_b (l0lib product sensor : Str) (files₀ : List Str)
    (acc : Bool × List (PyVal × Bool)) (m n : Nat)
    (h : bpair l0lib product sensor files₀ n ∈ acc.2) :
    bpair l0lib product sensor files₀ n ∈
      (checkStep (get_product_save_path product sensor l0lib) product sensor
        files₀ acc (.int m)).2 := by
  simp only [checkStep]
  split
  · apply pair_mem_dictSet
    · apply pair_mem_dictSet _ _ _ _ _ h
      intro hk
      have hmn : m = n := by
        have := congrArg (fun v => match v with | PyVal.int k => k | _ => 0) hk
        simpa using this
      subst hmn
      rfl
    · intro hk
      exact absurd hk (by simp [bpair])
  · apply pair_mem_dictSet _ _ _ _ _ h
    intro hk
    have hmn : m = n := by
      have := congrArg (fun v => match v with | PyVal.int k => k | _ => 0) hk
      simpa using this
    subst hmn
    rfl

theorem checkStep_preserve_g (l0lib product sensor : Str) (files₀ : List Str)
    (acc : Bool × List (PyVal × Bool)) (m n : Nat)
    (h : gpair l0lib product sensor files₀ n ∈ acc.2) :
    gpair l0lib product sensor files₀ n ∈
      (checkStep (get_product_save_path product sensor l0lib) product sensor
        files₀ acc (.int m)).2 := by
  simp only [checkStep]
  split
  · apply pair_mem_dictSet
    · apply pair_mem_dictSet _ _ _ _ _ h
      intro hk
      exact absurd hk (by simp [gpair, gmKeyV])
    · intro hk
      have hinj : ("GM".data ++ pyStr (.int m) : Str) = "GM".data ++ pyStr (.int n) := by
        have := congrArg (fun v => match v with | PyVal.str s => s | _ => []) hk
        simpa [gpair, gmKeyV] using this
      have hps : pyStr (.int m) = pyStr (.int n) := List.append_cancel_left hinj
      show files₀.contains _ = files₀.contains _
      simp only [gmPath, gmFileName, hps]
  · apply pair_mem_dictSet _ _ _ _ _ h
    intro hk
    exact absurd hk (by simp [gpair, gmKeyV])

theorem checkStep_insert (l0lib product sensor : Str) (files₀ : List Str)
    (acc : Bool × List (PyVal × Bool)) (m : Nat) :
    bpair l0lib product sensor files₀ m ∈
      (checkStep (get_product_save_path product sensor l0lib) product sensor
        files₀ acc (.int m)).2 ∧
    ((sensor == "ETM".data) = true →
      gpair l0lib product sensor files₀ m ∈
        (checkStep (get_product_save_path product sensor l0lib) product sensor
          files₀ acc (.int m)).2) := by
  simp only [checkStep]
  by_cases hE : (sensor == "ETM".data) = true
  · have hcond : (sensor == "ETM".data && strIsNumeric (.int m)) = true := by
      rw [hE, strIsNumeric_int]
      rfl
    rw [if_pos hcond]
    constructor
    · apply pair_mem_dictSet
      · exact pair_mem_dictSet_self _ _ _
      · intro hk
        exact absurd hk (by simp [gmKeyV])
    · intro _
      exact pair_mem_dictSet_self _ _ _
  · have hE' : (sensor == "ETM".data) = false := by
      cases hb : (sensor == "ETM".data)
      · rfl
      · exact absurd hb hE
    have hcond : (sensor == "ETM".data && strIsNumeric (.int m)) = false := by
      rw [hE']
      rfl
    rw [if_neg (by simp [hcond])]
    exact ⟨pair_mem_dictSet_self _ _ _, fun h => absurd h hE⟩

theorem store_keys (l0lib product sensor : Str) (files₀ : List Str) :
    ∀ (bandsN : List Nat) (acc : Bool × List (PyVal × Bool)),
    (∀ n, bpair l0lib product sensor files₀ n ∈ acc.2 →
      bpair l0lib product sensor files₀ n ∈
        ((bandsN.map PyVal.int).foldl
          (checkStep (get_product_save_path product sensor l0lib) product sensor
            files₀) acc).2) ∧
    (∀ n, gpair l0lib product sensor files₀ n ∈ acc.2 →
      gpair l0lib product sensor files₀ n ∈
        ((bandsN.map PyVal.int).foldl
          (checkStep (get_product_save_path product sensor l0lib) product sensor
            files₀) acc).2) ∧
    (∀ n ∈ bandsN,
      bpair l0lib product sensor files₀ n ∈
        ((bandsN.map PyVal.int).foldl
          (checkStep (get_product_save_path product sensor l0lib) product sensor
            files₀) acc).2 ∧
      ((sensor == "ETM".data) = true →
        gpair l0lib product sensor files₀ n ∈
          ((bandsN.map PyVal.int).foldl
            (checkStep (get_product_save_path product sensor l0lib) product
              sensor files₀) acc).2)) := by
  intro bandsN
  induction bandsN with
  | nil =>
    intro acc
    exact ⟨fun n h => h, fun n h => h, fun n hn => absurd hn (List.not_mem_nil _)⟩
  | cons m rest ih =>
    intro acc
    simp only [List.map_cons, List.foldl_cons]
    obtain ⟨ihb, ihg, ihmem⟩ := ih
      (checkStep (get_product_save_path product sensor l0lib) product sensor
        files₀ acc (.int m))
    refine ⟨?_, ?_, ?_⟩
    · intro n h
      exact ihb n (checkStep_preserve_b l0lib product sensor files₀ acc m n h)
    · intro n h
      exact ihg n (checkStep_preserve_g l0lib product sensor files₀ acc m n h)
    · intro n hn
      rcases List.mem_cons.1 hn with rfl | hn'
      · have hins := checkStep_insert l0lib product sensor files₀ acc n
        exact ⟨ihb n hins.1, fun hE => ihg n (hins.2 hE)⟩
      · exact ihmem n hn'

/-- `bandAssign` on the gap-mask key `'GM' + str(n)` for a single-digit
band: url under `gap_mask/` and save name `<product>_B<d>_GM.TIF.gz`. -/
theorem bandAssign_gm (hp im scene product : Str) (n : Nat) (hn : n < 10) :
    bandAssign hp im scene product (.str ("GM".data ++ pyStr (.int n))) =
      .ok (some (pyJoin (pyJoin hp "gap_mask".data)
          (scene ++ "_GM_B".data ++ [Nat.digitChar n] ++ ".TIF.gz".data),
        product ++ "_B".data ++ [Nat.digitChar n] ++ "_GM.TIF.gz".data,
        false, true)) := by
  have hd : pyStr (.int n) = [Nat.digitChar n] := by
    simp [pyStr, toDigits_single n hn]
  rw [hd]
  rfl

/-! ## Towards C5: single iterations of the download loop under an
all-success HTTP oracle -/

theorem ne_append_of_ne_nil (x s : Str) (hs : s ≠ []) : x ≠ x ++ s := by
  intro h
  have hl := congrArg List.length h
  simp only [List.length_append] at hl
  have : s.length = 0 := by omega
  exact hs (List.length_eq_zero.1 this)

theorem dpStep_skip (ok : Str → Bool) (hp im scene save product : Str)
    (st : DPState) (k : PyVal) :
    dpStep ok hp im scene save product st (k, true) = (st, none) := by
  simp [dpStep]

theorem dpStep_band (hp im scene save product : Str) (st : DPState) (n : Nat)
    (hdir : save ∈ st.dirs) :
    dpStep (fun _ => true) hp im scene save product st (.int n, false) =
      (⟨pyJoin save (product ++ "_B".data ++ pyStr (.int n) ++ ".TIF".data) ::
          st.files, st.dirs,
        some (im ++ "_B".data ++ pyStr (.int n) ++ ".TIF".data,
          product ++ "_B".data ++ pyStr (.int n) ++ ".TIF".data, true),
        st.count + 1⟩, none) := by
  simp only [dpStep, bandAssign_int, dpProceed, downloadFileNet]
  rw [if_neg (by simp)]
  rw [if_pos hdir]
  rfl

theorem pyStr_digit (n : Nat) (hn : n < 10) :
    pyStr (.int n) = [Nat.digitChar n] := by
  simp [pyStr, toDigits_single n hn]

theorem gm_gz_name_split (product : Str) (d : Char) :
    (product ++ "_B".data ++ [d] ++ "_GM.TIF.gz".data : Str) =
      (product ++ "_B".data ++ [d] ++ "_GM.TIF".data) ++ ".gz".data := by
  rw [show ("_GM.TIF.gz".data : Str) = "_GM.TIF".data ++ ".gz".data from rfl]
  simp only [List.append_assoc]

theorem gm_name_ne_nil (product : Str) (d : Char) :
    (product ++ "_B".data ++ [d] ++ "_GM.TIF".data : Str) ≠ [] := by
  simp

theorem gunzip_fresh (files : List Str) (x : Str) (hx : x ∉ files) :
    gunzipFile ((x ++ ".gz".data) :: files) (x ++ ".gz".data) =
      .ok (x :: files) := by
  unfold gunzipFile
  rw [gz_isSuffixOf_append]
  rw [if_neg (by simp)]
  rw [if_pos (List.mem_cons_self _ _)]
  rw [stripGz_append]
  rw [if_neg ?hnotin]
  case hnotin =>
    intro hmem
    rcases List.mem_cons.1 hmem with h1 | h1
    · exact ne_append_of_ne_nil x ".gz".data (by simp) h1
    · exact hx h1
  rw [List.erase_cons_head]

theorem dpProceed_gm_ok (save url name : Str) (st : DPState)
    (hdir : save ∈ st.dirs) (target : Str)
    (hj : pyJoin save name = target ++ ".gz".data)
    (htarget : target ∉ st.files) :
    dpProceed (fun _ => true) save url name false true st =
      (⟨target :: st.files, st.dirs, some (url, name, false), st.count + 1⟩,
        none) := by
  have hnet : downloadFileNet (fun _ => true) url save name st.files st.dirs =
      .ok (pyJoin save name :: st.files) := by
    simp only [downloadFileNet]
    rw [if_neg (by simp), if_pos hdir]
  have hgun : gunzipFile (pyJoin save name :: st.files) (pyJoin save name) =
      .ok (target :: st.files) := by
    rw [hj]
    exact gunzip_fresh st.files target htarget
  simp only [dpProceed, hnet, hgun]
  rw [if_pos trivial]

theorem dpStep_gm (hp im scene save product : Str) (st : DPState) (n : Nat)
    (hn : n < 10) (hdir : save ∈ st.dirs)
    (htarget : pyJoin save (product ++ "_B".data ++ [Nat.digitChar n] ++
      "_GM.TIF".data) ∉ st.files) :
    dpStep (fun _ => true) hp im scene save product st
        (.str ("GM".data ++ pyStr (.int n)), false) =
      (⟨pyJoin save (product ++ "_B".data ++ [Nat.digitChar n] ++
          "_GM.TIF".data) :: st.files, st.dirs,
        some (pyJoin (pyJoin hp "gap_mask".data)
            (scene ++ "_GM_B".data ++ [Nat.digitChar n] ++ ".TIF.gz".data),
          product ++ "_B".data ++ [Nat.digitChar n] ++ "_GM.TIF.gz".data,
          false),
        st.count + 1⟩, none) := by
  have hj : pyJoin save (product ++ "_B".data ++ [Nat.digitChar n] ++
        "_GM.TIF.gz".data) =
      pyJoin save (product ++ "_B".data ++ [Nat.digitChar n] ++
        "_GM.TIF".data) ++ ".gz".data := by
    rw [gm_gz_name_split]
    exact pyJoin_append_of_ne_nil _ _ _ (gm_name_ne_nil product _)
  rw [pyStr_digit n hn]
  exact dpProceed_gm_ok save
    (pyJoin (pyJoin hp "gap_mask".data)
      (scene ++ "_GM_B".data ++ [Nat.digitChar n] ++ ".TIF.gz".data))
    (product ++ "_B".data ++ [Nat.digitChar n] ++ "_GM.TIF.gz".data) st hdir
    (pyJoin save (product ++ "_B".data ++ [Nat.digitChar n] ++ "_GM.TIF".data))
    hj htarget

/-! Path injectivity for single-digit bands. -/

theorem bandFileName_digit (product : Str) (n : Nat) (hn : n < 10) :
    bandFileName product (.int n) =
      (product ++ "_B".data) ++ ([Nat.digitChar n] ++ ".TIF".data) := by
  rw [bandFileName_int, pyStr_digit n hn]
  simp only [List.append_assoc]

theorem gmFileName_digit (product : Str) (n : Nat) (hn : n < 10) :
    gmFileName product (.int n) =
      (product ++ "_B".data) ++ ([Nat.digitChar n] ++ "_GM.TIF".data) := by
  simp only [gmFileName, pyStr_digit n hn, List.append_assoc]

theorem q_ne_nil (product : Str) : (product ++ "_B".data : Str) ≠ [] := by
  simp

theorem bandPath_inj10 (l0lib product sensor : Str) (n m : Nat) (hn : n < 10)
    (hm : m < 10) (h : bandPath l0lib product sensor n =
      bandPath l0lib product sensor m) : n = m := by
  simp only [bandPath, bandFileName_digit product n hn,
    bandFileName_digit product m hm] at h
  have hh := pyJoin_inj_of_head _ _ _
    (by rw [List.head?_append_of_ne_nil _ (q_ne_nil product),
      List.head?_append_of_ne_nil _ (q_ne_nil product)]) h
  have ht := List.append_cancel_left hh
  exact digitChar_inj10 n hn m hm (cons_append_inj _ _ _ ht)

theorem gmPath_inj10 (l0lib product sensor : Str) (n m : Nat) (hn : n < 10)
    (hm : m < 10) (h : gmPath l0lib product sensor n =
      gmPath l0lib product sensor m) : n = m := by
  simp only [gmPath, gmFileName_digit product n hn,
    gmFileName_digit product m hm] at h
  have hh := pyJoin_inj_of_head _ _ _
    (by rw [List.head?_append_of_ne_nil _ (q_ne_nil product),
      List.head?_append_of_ne_nil _ (q_ne_nil product)]) h
  have ht := List.append_cancel_left hh
  exact digitChar_inj10 n hn m hm (cons_append_inj _ _ _ ht)

theorem bandPath_ne_gmPath (l0lib product sensor : Str) (n m : Nat)
    (hn : n < 10) (hm : m < 10) :
    bandPath l0lib product sensor n ≠ gmPath l0lib product sensor m := by
  intro h
  simp only [bandPath, gmPath, bandFileName_digit product n hn,
    gmFileName_digit product m hm] at h
  have hh := pyJoin_inj_of_head _ _ _
    (by rw [List.head?_append_of_ne_nil _ (q_ne_nil product),
      List.head?_append_of_ne_nil _ (q_ne_nil product)]) h
  have ht := List.append_cancel_left hh
  exact cons_append_len_ne _ _ _ _ (by decide) ht

/-- The local path an availability entry stands for: the band file for an
`int` key, the gap-mask file (key `'GM<digits>'`) otherwise. -/
def entryPath (l0lib product sensor : Str) (kv : PyVal × Bool) : Str :=
  match kv.1 with
  | .int n => bandPath l0lib product sensor n
  | .str s => pyJoin (get_product_save_path product sensor l0lib)
      (product ++ "_B".data ++ s.drop 2 ++ "_GM.TIF".data)

theorem entryPath_bpair (l0lib product sensor : Str) (files₀ : List Str)
    (n : Nat) :
    entryPath l0lib product sensor (bpair l0lib product sensor files₀ n) =
      bandPath l0lib product sensor n := rfl

theorem entryPath_gpair (l0lib product sensor : Str) (files₀ : List Str)
    (n : Nat) :
    entryPath l0lib product sensor (gpair l0lib product sensor files₀ n) =
      gmPath l0lib product sensor n := by
  simp only [entryPath, gpair, gmKeyV]
  have h2 : ("GM".data : Str).length = 2 := rfl
  rw [show (("GM".data ++ pyStr (.int n) : Str)).drop 2 =
    pyStr (.int n) from h2 ▸ List.drop_left _ _]
  rfl

/-! ## Towards C5: running the whole loop under an all-success oracle -/

theorem dpRun_cons_ok (ok : Str → Bool) (hp im scene save product : Str)
    (st st' : DPState) (e : PyVal × Bool) (rest : List (PyVal × Bool))
    (h : dpStep ok hp im scene save product st e = (st', none)) :
    dpRun ok hp im scene save product st (e :: rest) =
      dpRun ok hp im scene save product st' rest := by
  simp only [dpRun]
  rw [h]

/-- Running the download loop over a well-formed status dict with an
all-success HTTP oracle: no exception, the file set only grows, every
entry's artifact file is present afterwards, and the directory set is
unchanged. -/
theorem dpRun_all_ok (l0lib product sensor : Str) (files₀ : List Str)
    (bandsN₀ : List Nat) (hlt : ∀ n ∈ bandsN₀, n < 10) (hp im scene : Str) :
    ∀ (entries : List (PyVal × Bool)) (st : DPState),
    (∀ kv ∈ entries,
      (∃ n ∈ bandsN₀, kv = bpair l0lib product sensor files₀ n) ∨
      (∃ n ∈ bandsN₀, kv = gpair l0lib product sensor files₀ n)) →
    entries.Pairwise (fun a b => a.1 ≠ b.1) →
    get_product_save_path product sensor l0lib ∈ st.dirs →
    (∀ kv ∈ entries, kv.2 = true →
      entryPath l0lib product sensor kv ∈ st.files) →
    (∀ kv ∈ entries, kv.2 = false →
      entryPath l0lib product sensor kv ∉ st.files) →
    (dpRun (fun _ => true) hp im scene
        (get_product_save_path product sensor l0lib) product st entries).2
      = none ∧
    (∀ p ∈ st.files,
      p ∈ (dpRun (fun _ => true) hp im scene
        (get_product_save_path product sensor l0lib) product st
        entries).1.files) ∧
    (∀ kv ∈ entries, entryPath l0lib product sensor kv ∈
      (dpRun (fun _ => true) hp im scene
        (get_product_save_path product sensor l0lib) product st
        entries).1.files) ∧
    (dpRun (fun _ => true) hp im scene
        (get_product_save_path product sensor l0lib) product st
        entries).1.dirs = st.dirs := by
  intro entries
  induction entries with
  | nil =>
    intro st _ _ _ _ _
    exact ⟨rfl, fun p hpmem => hpmem,
      fun kv hkv => absurd hkv (List.not_mem_nil _), rfl⟩
  | cons kv rest ih =>
    intro st hOK hpw hdir htrue hfalse
    obtain ⟨hpwhead, hpwrest⟩ := List.pairwise_cons.1 hpw
    have hOKrest : ∀ kv' ∈ rest,
        (∃ n ∈ bandsN₀, kv' = bpair l0lib product sensor files₀ n) ∨
        (∃ n ∈ bandsN₀, kv' = gpair l0lib product sensor files₀ n) :=
      fun kv' h => hOK kv' (List.mem_cons_of_mem _ h)
    rcases hOK kv (List.mem_cons_self _ _) with ⟨n, hnmem, hkv⟩ | ⟨n, hnmem, hkv⟩
    · -- the head entry is the band entry for n
      have hn10 := hlt n hnmem
      subst hkv
      cases hv : files₀.contains (bandPath l0lib product sensor n) with
      | true =>
        have hbt : bpair l0lib product sensor files₀ n = (PyVal.int n, true) := by
          simp only [bpair, hv]
        have hstep : dpStep (fun _ => true) hp im scene
            (get_product_save_path product sensor l0lib) product st
            (bpair l0lib product sensor files₀ n) = (st, none) := by
          rw [hbt]
          exact dpStep_skip _ _ _ _ _ _ _ _
        rw [dpRun_cons_ok _ _ _ _ _ _ _ _ _ _ hstep]
        have hmemfiles : entryPath l0lib product sensor
            (bpair l0lib product sensor files₀ n) ∈ st.files :=
          htrue _ (List.mem_cons_self _ _) (by rw [hbt])
        obtain ⟨ih1, ih2, ih3, ih4⟩ := ih st hOKrest hpwrest hdir
          (fun kv' h hv' => htrue kv' (List.mem_cons_of_mem _ h) hv')
          (fun kv' h hv' => hfalse kv' (List.mem_cons_of_mem _ h) hv')
        refine ⟨ih1, ih2, ?_, ih4⟩
        intro kv' hkv'
        rcases List.mem_cons.1 hkv' with rfl | h
        · exact ih2 _ hmemfiles
        · exact ih3 kv' h
      | false =>
        have hbf : bpair l0lib product sensor files₀ n = (PyVal.int n, false) := by
          simp only [bpair, hv]
        have hnotin : bandPath l0lib product sensor n ∉ st.files := by
          have := hfalse _ (List.mem_cons_self _ _) (by rw [hbf])
          rwa [entryPath_bpair] at this
        have hpath : pyJoin (get_product_save_path product sensor l0lib)
            (product ++ "_B".data ++ pyStr (.int n) ++ ".TIF".data) =
            bandPath l0lib product sensor n := by
          rw [bandPath, bandFileName_int]
        have hstep : dpStep (fun _ => true) hp im scene
            (get_product_save_path product sensor l0lib) product st
            (bpair l0lib product sensor files₀ n) =
            (⟨bandPath l0lib product sensor n :: st.files, st.dirs,
              some (im ++ "_B".data ++ pyStr (.int n) ++ ".TIF".data,
                product ++ "_B".data ++ pyStr (.int n) ++ ".TIF".data, true),
              st.count + 1⟩, none) := by
          rw [hbf, ← hpath]
          exact dpStep_band hp im scene _ product st n hdir
        rw [dpRun_cons_ok _ _ _ _ _ _ _ _ _ _ hstep]
        have hfalse' : ∀ kv' ∈ rest, kv'.2 = false →
            entryPath l0lib product sensor kv' ∉
              (bandPath l0lib product sensor n :: st.files) := by
          intro kv' h hv'
          intro hmem
          rcases List.mem_cons.1 hmem with heq | hmem'
          · have hkey : (bpair l0lib product sensor files₀ n).1 ≠ kv'.1 :=
              hpwhead kv' h
            rcases hOKrest kv' h with ⟨m, hmmem, hkv'⟩ | ⟨m, hmmem, hkv'⟩
            · subst hkv'
              rw [entryPath_bpair] at heq
              have hmn : m = n := bandPath_inj10 l0lib product sensor m n
                (hlt m hmmem) hn10 heq
              subst hmn
              exact hkey rfl
            · subst hkv'
              rw [entryPath_gpair] at heq
              exact bandPath_ne_gmPath l0lib product sensor n m hn10
                (hlt m hmmem) heq.symm
          · exact hfalse kv' (List.mem_cons_of_mem _ h) hv' hmem'
        obtain ⟨ih1, ih2, ih3, ih4⟩ := ih
          ⟨bandPath l0lib product sensor n :: st.files, st.dirs,
            some (im ++ "_B".data ++ pyStr (.int n) ++ ".TIF".data,
              product ++ "_B".data ++ pyStr (.int n) ++ ".TIF".data, true),
            st.count + 1⟩
          hOKrest hpwrest hdir
          (fun kv' h hv' =>
            List.mem_cons_of_mem _ (htrue kv' (List.mem_cons_of_mem _ h) hv'))
          hfalse'
        refine ⟨ih1, ?_, ?_, ih4⟩
        · intro p hpmem
          exact ih2 p (List.mem_cons_of_mem _ hpmem)
        · intro kv' hkv'
          rcases List.mem_cons.1 hkv' with rfl | h
          · rw [entryPath_bpair]
            exact ih2 _ (List.mem_cons_self _ _)
          · exact ih3 kv' h
    · -- the head entry is the gap-mask entry for n
      have hn10 := hlt n hnmem
      subst hkv
      cases hv : files₀.contains (gmPath l0lib product sensor n) with
      | true =>
        have hgt : gpair l0lib product sensor files₀ n = (gmKeyV n, true) := by
          simp only [gpair, hv]
        have hstep : dpStep (fun _ => true) hp im scene
            (get_product_save_path product sensor l0lib) product st
            (gpair l0lib product sensor files₀ n) = (st, none) := by
          rw [hgt]
          exact dpStep_skip _ _ _ _ _ _ _ _
        rw [dpRun_cons_ok _ _ _ _ _ _ _ _ _ _ hstep]
        have hmemfiles : entryPath l0lib product sensor
            (gpair l0lib product sensor files₀ n) ∈ st.files :=
          htrue _ (List.mem_cons_self _ _) (by rw [hgt])
        obtain ⟨ih1, ih2, ih3, ih4⟩ := ih st hOKrest hpwrest hdir
          (fun kv' h hv' => htrue kv' (List.mem_cons_of_mem _ h) hv')
          (fun kv' h hv' => hfalse kv' (List.mem_cons_of_mem _ h) hv')
        refine ⟨ih1, ih2, ?_, ih4⟩
        intro kv' hkv'
        rcases List.mem_cons.1 hkv' with rfl | h
        · exact ih2 _ hmemfiles
        · exact ih3 kv' h
      | false =>
        have hname : (product ++ "_B".data ++ [Nat.digitChar n] ++
            "_GM.TIF".data : Str) = gmFileName product (.int n) := by
          rw [gmFileName_digit product n hn10]
          simp only [List.append_assoc]
        have hpath : pyJoin (get_product_save_path product sensor l0lib)
            (product ++ "_B".data ++ [Nat.digitChar n] ++ "_GM.TIF".data) =
            gmPath l0lib product sensor n := by
          rw [hname, gmPath]
        have hgf : gpair l0lib product sensor files₀ n = (gmKeyV n, false) := by
          simp only [gpair, hv]
        have hnotin : gmPath l0lib product sensor n ∉ st.files := by
          have := hfalse _ (List.mem_cons_self _ _) (by rw [hgf])
          rwa [entryPath_gpair] at this
        have hstep : dpStep (fun _ => true) hp im scene
            (get_product_save_path product sensor l0lib) product st
            (gpair l0lib product sensor files₀ n) =
            (⟨gmPath l0lib product sensor n :: st.files, st.dirs,
              some (pyJoin (pyJoin hp "gap_mask".data)
                  (scene ++ "_GM_B".data ++ [Nat.digitChar n] ++
                    ".TIF.gz".data),
                product ++ "_B".data ++ [Nat.digitChar n] ++
                  "_GM.TIF.gz".data, false),
              st.count + 1⟩, none) := by
          rw [hgf, ← hpath]
          exact dpStep_gm hp im scene _ product st n hn10 hdir
            (hpath ▸ hnotin)
        rw [dpRun_cons_ok _ _ _ _ _ _ _ _ _ _ hstep]
        have hfalse' : ∀ kv' ∈ rest, kv'.2 = false →
            entryPath l0lib product sensor kv' ∉
              (gmPath l0lib product sensor n :: st.files) := by
          intro kv' h hv'
          intro hmem
          rcases List.mem_cons.1 hmem with heq | hmem'
          · have hkey : (gpair l0lib product sensor files₀ n).1 ≠ kv'.1 :=
              hpwhead kv' h
            rcases hOKrest kv' h with ⟨m, hmmem, hkv'⟩ | ⟨m, hmmem, hkv'⟩
            · subst hkv'
              rw [entryPath_bpair] at heq
              exact bandPath_ne_gmPath l0lib product sensor m n
                (hlt m hmmem) hn10 heq
            · subst hkv'
              rw [entryPath_gpair] at heq
              have hmn : m = n := gmPath_inj10 l0lib product sensor m n
                (hlt m hmmem) hn10 heq
              subst hmn
              exact hkey rfl
          · exact hfalse kv' (List.mem_cons_of_mem _ h) hv' hmem'
        obtain ⟨ih1, ih2, ih3, ih4⟩ := ih
          ⟨gmPath l0lib product sensor n :: st.files, st.dirs,
            some (pyJoin (pyJoin hp "gap_mask".data)
                (scene ++ "_GM_B".data ++ [Nat.digitChar n] ++ ".TIF.gz".data),
              product ++ "_B".data ++ [Nat.digitChar n] ++ "_GM.TIF.gz".data,
              false),
            st.count + 1⟩
          hOKrest hpwrest hdir
          (fun kv' h hv' =>
            List.mem_cons_of_mem _ (htrue kv' (List.mem_cons_of_mem _ h) hv'))
          hfalse'
        refine ⟨ih1, ?_, ?_, ih4⟩
        · intro p hpmem
          exact ih2 p (List.mem_cons_of_mem _ hpmem)
        · intro kv' hkv'
          rcases List.mem_cons.1 hkv' with rfl | h
          · rw [entryPath_gpair]
            exact ih2 _ (List.mem_cons_self _ _)
          · exact ih3 kv' h

/-! ## C5: the per-record and per-batch runs -/

theorem triple_eta {α β γ : Type} (x : α × β × γ) {c : γ} (h : x.2.2 = c) :
    x = (x.1, x.2.1, c) := by
  rw [← h]

/-- Downloading one record with an all-success oracle: no exception, the
existing files survive, and afterwards every path checked by
`check_product_available` is present. -/
theorem download_product_completes (l0lib product sensor : Str) (coll : PyVal)
    (gs_path restPath : Str) (hgs : gs_path = gsAccessDefault ++ restPath)
    (bandsN : List Nat) (hlt : ∀ n ∈ bandsN, n < 10) (fs : FS) :
    (download_product (fun _ => true) l0lib product sensor coll gs_path
        (check_product_available l0lib product coll sensor
          (bandsN.map PyVal.int) false false fs.files).2
        gsAccessDefault httpAccessDefault fs).2.2 = none ∧
    (∀ p ∈ fs.files,
      p ∈ (download_product (fun _ => true) l0lib product sensor coll gs_path
        (check_product_available l0lib product coll sensor
          (bandsN.map PyVal.int) false false fs.files).2
        gsAccessDefault httpAccessDefault fs).1.files) ∧
    (∀ p ∈ checkedPaths l0lib product coll sensor (bandsN.map PyVal.int)
        false false,
      p ∈ (download_product (fun _ => true) l0lib product sensor coll gs_path
        (check_product_available l0lib product coll sensor
          (bandsN.map PyVal.int) false false fs.files).2
        gsAccessDefault httpAccessDefault fs).1.files) := by
  subst hgs
  obtain ⟨hp, im, hderive⟩ := deriveHttpPaths_some httpAccessDefault restPath
  have hstore_def : (check_product_available l0lib product coll sensor
      (bandsN.map PyVal.int) false false fs.files).2 =
      ((bandsN.map PyVal.int).foldl
        (checkStep (get_product_save_path product sensor l0lib) product sensor
          fs.files) (true, [])).2 := by
    simp only [check_product_available, effectiveBands_ff]
  have hshape : ∀ kv ∈ (check_product_available l0lib product coll sensor
      (bandsN.map PyVal.int) false false fs.files).2,
      (∃ n ∈ bandsN, kv = bpair l0lib product sensor fs.files n) ∨
      (∃ n ∈ bandsN, kv = gpair l0lib product sensor fs.files n) := by
    rw [hstore_def]
    exact store_shape l0lib product sensor fs.files bandsN bandsN
      (fun n hn => hn) (true, []) (fun kv hkv => absurd hkv (List.not_mem_nil _))
  have hpw : ((check_product_available l0lib product coll sensor
      (bandsN.map PyVal.int) false false fs.files).2).Pairwise
      (fun a b => a.1 ≠ b.1) := by
    rw [hstore_def]
    exact store_pairwise_all _ _ _ _ _ (true, []) (by simp)
  obtain ⟨hkb, hkg, hkmem⟩ := store_keys l0lib product sensor fs.files bandsN
    (true, [])
  have hkmem' : ∀ n ∈ bandsN,
      bpair l0lib product sensor fs.files n ∈ (check_product_available l0lib
        product coll sensor (bandsN.map PyVal.int) false false fs.files).2 ∧
      ((sensor == "ETM".data) = true →
        gpair l0lib product sensor fs.files n ∈ (check_product_available l0lib
          product coll sensor (bandsN.map PyVal.int) false false
          fs.files).2) := by
    rw [hstore_def]
    exact hkmem
  have heq : download_product (fun _ => true) l0lib product sensor coll
      (gsAccessDefault ++ restPath)
      (check_product_available l0lib product coll sensor
        (bandsN.map PyVal.int) false false fs.files).2
      gsAccessDefault httpAccessDefault fs =
      (⟨(dpRun (fun _ => true) hp im
          ((pySplit (gsAccessDefault ++ restPath) "/".data).getLastD [])
          (get_product_save_path product sensor l0lib) product
          ⟨fs.files, if get_product_save_path product sensor l0lib ∈ fs.dirs
            then fs.dirs
            else get_product_save_path product sensor l0lib :: fs.dirs,
            none, 0⟩
          (check_product_available l0lib product coll sensor
            (bandsN.map PyVal.int) false false fs.files).2).1.files,
        (dpRun (fun _ => true) hp im
          ((pySplit (gsAccessDefault ++ restPath) "/".data).getLastD [])
          (get_product_save_path product sensor l0lib) product
          ⟨fs.files, if get_product_save_path product sensor l0lib ∈ fs.dirs
            then fs.dirs
            else get_product_save_path product sensor l0lib :: fs.dirs,
            none, 0⟩
          (check_product_available l0lib product coll sensor
            (bandsN.map PyVal.int) false false fs.files).2).1.dirs⟩,
        (dpRun (fun _ => true) hp im
          ((pySplit (gsAccessDefault ++ restPath) "/".data).getLastD [])
          (get_product_save_path product sensor l0lib) product
          ⟨fs.files, if get_product_save_path product sensor l0lib ∈ fs.dirs
            then fs.dirs
            else get_product_save_path product sensor l0lib :: fs.dirs,
            none, 0⟩
          (check_product_available l0lib product coll sensor
            (bandsN.map PyVal.int) false false fs.files).2).1.count,
        (dpRun (fun _ => true) hp im
          ((pySplit (gsAccessDefault ++ restPath) "/".data).getLastD [])
          (get_product_save_path product sensor l0lib) product
          ⟨fs.files, if get_product_save_path product sensor l0lib ∈ fs.dirs
            then fs.dirs
            else get_product_save_path product sensor l0lib :: fs.dirs,
            none, 0⟩
          (check_product_available l0lib product coll sensor
            (bandsN.map PyVal.int) false false fs.files).2).2) := by
    unfold download_product
    rw [hderive]
  have hdirmem : get_product_save_path product sensor l0lib ∈
      (⟨fs.files, if get_product_save_path product sensor l0lib ∈ fs.dirs
        then fs.dirs
        else get_product_save_path product sensor l0lib :: fs.dirs,
        none, 0⟩ : DPState).dirs := by
    show get_product_save_path product sensor l0lib ∈
      (if get_product_save_path product sensor l0lib ∈ fs.dirs then fs.dirs
        else get_product_save_path product sensor l0lib :: fs.dirs)
    split
    · assumption
    · exact List.mem_cons_self _ _
  obtain ⟨hr1, hr2, hr3, _hr4⟩ := dpRun_all_ok l0lib product sensor fs.files
    bandsN hlt hp im
    ((pySplit (gsAccessDefault ++ restPath) "/".data).getLastD [])
    ((check_product_available l0lib product coll sensor
      (bandsN.map PyVal.int) false false fs.files).2)
    ⟨fs.files, if get_product_save_path product sensor l0lib ∈ fs.dirs
      then fs.dirs
      else get_product_save_path product sensor l0lib :: fs.dirs, none, 0⟩
    hshape hpw hdirmem
    (by
      intro kv hkv hvtrue
      rcases hshape kv hkv with ⟨n, _, hkveq⟩ | ⟨n, _, hkveq⟩
      · subst hkveq
        rw [entryPath_bpair]
        have : fs.files.contains (bandPath l0lib product sensor n) = true := hvtrue
        exact (contains_iff_mem _ _).1 this
      · subst hkveq
        rw [entryPath_gpair]
        have : fs.files.contains (gmPath l0lib product sensor n) = true := hvtrue
        exact (contains_iff_mem _ _).1 this)
    (by
      intro kv hkv hvfalse
      rcases hshape kv hkv with ⟨n, _, hkveq⟩ | ⟨n, _, hkveq⟩
      · subst hkveq
        rw [entryPath_bpair]
        intro hmem
        have hc : fs.files.contains (bandPath l0lib product sensor n) = false :=
          hvfalse
        rw [(contains_iff_mem _ _).2 hmem] at hc
        cases hc
      · subst hkveq
        rw [entryPath_gpair]
        intro hmem
        have hc : fs.files.contains (gmPath l0lib product sensor n) = false :=
          hvfalse
        rw [(contains_iff_mem _ _).2 hmem] at hc
        cases hc)
  rw [heq]
  refine ⟨hr1, hr2, ?_⟩
  intro p hpmem
  simp only [checkedPaths, effectiveBands_ff, List.mem_flatMap] at hpmem
  obtain ⟨b, hb, hpb⟩ := hpmem
  obtain ⟨n, hnmem, rfl⟩ := List.mem_map.1 hb
  rcases List.mem_cons.1 hpb with rfl | hpb'
  · have := hr3 _ (hkmem' n hnmem).1
    rwa [entryPath_bpair] at this
  · by_cases hcond : (sensor == "ETM".data && strIsNumeric (.int n)) = true
    · rw [if_pos hcond] at hpb'
      rcases List.mem_singleton.1 hpb' with rfl
      have hE : (sensor == "ETM".data) = true := by
        have hcc := hcond
        rw [Bool.and_eq_true] at hcc
        exact hcc.1
      have := hr3 _ ((hkmem' n hnmem).2 hE)
      rwa [entryPath_gpair] at this
    · rw [if_neg hcond] at hpb'
      exact absurd hpb' (List.not_mem_nil _)

theorem download_products_cons_complete (ok : Str → Bool) (l0lib : Str)
    (bands : List PyVal) (r : Row) (rest : List Row) (fs : FS) (count : Nat)
    (h : (check_product_available l0lib r.PRODUCT_ID r.COLLECTION_NUMBER
      r.SENSOR_ID bands false false fs.files).1 = true) :
    download_products ok l0lib bands (r :: rest) fs count =
      download_products ok l0lib bands rest fs count := by
  simp only [download_products]
  rw [if_pos h]

theorem download_products_cons_step (ok : Str → Bool) (l0lib : Str)
    (bands : List PyVal) (r : Row) (rest : List Row) (fs fs' : FS)
    (count c : Nat)
    (h : (check_product_available l0lib r.PRODUCT_ID r.COLLECTION_NUMBER
      r.SENSOR_ID bands false false fs.files).1 ≠ true)
    (hdp : download_product ok l0lib r.PRODUCT_ID r.SENSOR_ID
      r.COLLECTION_NUMBER r.BASE_URL
      (check_product_available l0lib r.PRODUCT_ID r.COLLECTION_NUMBER
        r.SENSOR_ID bands false false fs.files).2
      gsAccessDefault httpAccessDefault fs = (fs', c, none)) :
    download_products ok l0lib bands (r :: rest) fs count =
      download_products ok l0lib bands rest fs' (count + c) := by
  simp only [download_products]
  rw [if_neg h, hdp]

/-- After a first all-success run, no exception has escaped, the previous
files survive, and every checked path of every record is present. -/
theorem download_products_run1 (l0lib : Str) (bandsN : List Nat)
    (hlt : ∀ n ∈ bandsN, n < 10) :
    ∀ (rows : List Row),
      (∀ r ∈ rows, ∃ rest, r.BASE_URL = gsAccessDefault ++ rest) →
      ∀ (fs : FS) (count : Nat),
      (download_products (fun _ => true) l0lib (bandsN.map PyVal.int) rows fs
        count).2.2 = none ∧
      (∀ p ∈ fs.files,
        p ∈ (download_products (fun _ => true) l0lib (bandsN.map PyVal.int)
          rows fs count).1.files) ∧
      (∀ r ∈ rows, ∀ p ∈ checkedPaths l0lib r.PRODUCT_ID r.COLLECTION_NUMBER
          r.SENSOR_ID (bandsN.map PyVal.int) false false,
        p ∈ (download_products (fun _ => true) l0lib (bandsN.map PyVal.int)
          rows fs count).1.files) := by
  intro rows
  induction rows with
  | nil =>
    intro _ fs count
    exact ⟨rfl, fun p hpmem => hpmem,
      fun r hr => absurd hr (List.not_mem_nil _)⟩
  | cons r rest ih =>
    intro hurls fs count
    have hurlrest : ∀ r' ∈ rest, ∃ q, r'.BASE_URL = gsAccessDefault ++ q :=
      fun r' h => hurls r' (List.mem_cons_of_mem _ h)
    by_cases hc : (check_product_available l0lib r.PRODUCT_ID
        r.COLLECTION_NUMBER r.SENSOR_ID (bandsN.map PyVal.int) false false
        fs.files).1 = true
    · rw [download_products_cons_complete _ _ _ _ _ _ _ hc]
      obtain ⟨ih1, ih2, ih3⟩ := ih hurlrest fs count
      refine ⟨ih1, ih2, ?_⟩
      intro r' hr' p hpmem
      rcases List.mem_cons.1 hr' with rfl | hr''
      · have hpfs : p ∈ fs.files :=
          (contains_iff_mem _ _).1 ((check_complete_iff l0lib r'.PRODUCT_ID
            r'.COLLECTION_NUMBER r'.SENSOR_ID (bandsN.map PyVal.int) false
            false fs.files).1 hc p hpmem)
        exact ih2 p hpfs
      · exact ih3 r' hr'' p hpmem
    · obtain ⟨restPath, hbase⟩ := hurls r (List.mem_cons_self _ _)
      obtain ⟨hd1, hd2, hd3⟩ := download_product_completes l0lib r.PRODUCT_ID
        r.SENSOR_ID r.COLLECTION_NUMBER r.BASE_URL restPath hbase bandsN hlt fs
      have hdp := triple_eta _ hd1
      rw [download_products_cons_step _ _ _ _ _ _ _ _ _ hc hdp]
      obtain ⟨ih1, ih2, ih3⟩ := ih hurlrest _ _
      refine ⟨ih1, ?_, ?_⟩
      · intro p hpmem
        exact ih2 p (hd2 p hpmem)
      · intro r' hr' p hpmem
        rcases List.mem_cons.1 hr' with rfl | hr''
        · exact ih2 p (hd3 p hpmem)
        · exact ih3 r' hr'' p hpmem

/-- A run over rows that are all complete does nothing at all. -/
theorem download_products_complete_rows (ok : Str → Bool) (l0lib : Str)
    (bands : List PyVal) :
    ∀ (rows : List Row) (fs : FS) (count : Nat),
      (∀ r ∈ rows, (check_product_available l0lib r.PRODUCT_ID
        r.COLLECTION_NUMBER r.SENSOR_ID bands false false fs.files).1 =
        true) →
      download_products ok l0lib bands rows fs count = (fs, count, none) := by
  intro rows
  induction rows with
  | nil => intro fs count _; rfl
  | cons r rest ih =>
    intro fs count hall
    rw [download_products_cons_complete _ _ _ _ _ _ _
      (hall r (List.mem_cons_self _ _))]
    exact ih fs count (fun r' h => hall r' (List.mem_cons_of_mem _ h))

/-- C5 fails as stated: with sensor `'ETM'` and the two-digit band 10, the
gap-mask handling reads only one digit (`b[2]`), so the first run stores
`P_B1_GM.TIF` while the availability check looks for `P_B10_GM.TIF`; a
second run over the same save root and record set performs another
download (and then crashes in gunzip because the stale decompressed file
exists). -/
theorem C5_counterexample :
    (download_products (fun _ => true) "L".data [PyVal.int 10]
        [⟨"P".data, "ETM".data, .int 1,
          "gs://gcp-public-data-landsat/LE07/x".data⟩] ⟨[], []⟩ 0).2.2 =
      none ∧
    (download_products (fun _ => true) "L".data [PyVal.int 10]
        [⟨"P".data, "ETM".data, .int 1,
          "gs://gcp-public-data-landsat/LE07/x".data⟩]
        (download_products (fun _ => true) "L".data [PyVal.int 10]
          [⟨"P".data, "ETM".data, .int 1,
            "gs://gcp-public-data-landsat/LE07/x".data⟩] ⟨[], []⟩ 0).1
        0).2.1 = 1 := by
  constructor
  · rfl
  · rfl

/-- C5 (amended): for single-digit numeric band requests against records
whose base paths carry the object-storage prefix, and with every HTTP
transfer succeeding, the first `download_products` run raises nothing and
a second run over the same save root and record set performs zero
downloads, changes nothing and raises nothing: every record is found
complete and skipped, and no `download_file` call (hence no network
access) happens. -/
theorem C5_second_run_no_downloads (l0lib : Str) (bandsN : List Nat)
    (hlt : ∀ n ∈ bandsN, n < 10) (rows : List Row)
    (hurls : ∀ r ∈ rows, ∃ rest, r.BASE_URL = gsAccessDefault ++ rest)
    (fs : FS) :
    (download_products (fun _ => true) l0lib (bandsN.map PyVal.int) rows fs
      0).2.2 = none ∧
    download_products (fun _ => true) l0lib (bandsN.map PyVal.int) rows
        (download_products (fun _ => true) l0lib (bandsN.map PyVal.int) rows
          fs 0).1 0 =
      ((download_products (fun _ => true) l0lib (bandsN.map PyVal.int) rows
        fs 0).1, 0, none) := by
  obtain ⟨h1, _h2, h3⟩ := download_products_run1 l0lib bandsN hlt rows hurls fs 0
  refine ⟨h1, ?_⟩
  apply download_products_complete_rows
  intro r hr
  rw [check_complete_iff]
  intro p hpmem
  exact (contains_iff_mem _ _).2 (h3 r hr p hpmem)

/-- Witness for C5 (amended) at a concrete record and band set. -/
theorem C5_witness :
    (download_products (fun _ => true) "L".data ([4].map PyVal.int)
      [⟨"P".data, "TM".data, .int 1, gsAccessDefault ++ "LT05/s".data⟩]
      ⟨[], []⟩ 0).2.2 = none ∧
    download_products (fun _ => true) "L".data ([4].map PyVal.int)
        [⟨"P".data, "TM".data, .int 1, gsAccessDefault ++ "LT05/s".data⟩]
        (download_products (fun _ => true) "L".data ([4].map PyVal.int)
          [⟨"P".data, "TM".data, .int 1, gsAccessDefault ++ "LT05/s".data⟩]
          ⟨[], []⟩ 0).1 0 =
      ((download_products (fun _ => true) "L".data ([4].map PyVal.int)
        [⟨"P".data, "TM".data, .int 1, gsAccessDefault ++ "LT05/s".data⟩]
        ⟨[], []⟩ 0).1, 0, none) :=
  C5_second_run_no_downloads "L".data [4] (by decide)
    [⟨"P".data, "TM".data, .int 1, gsAccessDefault ++ "LT05/s".data⟩]
    (fun r hr => by
      rw [List.mem_singleton] at hr
      subst hr
      exact ⟨"LT05/s".data, rfl⟩)
    ⟨[], []⟩

end GsLandsat





